import Mathlib

/-!
Verification development for the spotfm repository (a Spotify library
mirroring tool).  The Python sources under `src/spotfm` are shallowly
embedded as executable Lean definitions: SQL tables become lists of rows,
the pickle object cache becomes an association list keyed by (kind, id),
the remote API and the external `rapidfuzz` / `re` / SQL `LIKE` engines
become explicit function parameters, and stateful loops become folds with
explicit state.  Machine strings are modelled by Lean `String` with all
operations implemented over the underlying `List Char` (Python `str`
operations act on code points, as these do).
-/

namespace Spotfm

/-! ## String helpers (List Char based, mirroring Python / SQLite semantics) -/

/-- Python `str.lower()` / SQLite `LOWER` (ASCII case folding). -/
def lowerStr (s : String) : String := ⟨s.data.map Char.toLower⟩

/-- Python `len(s)` (number of code points). -/
def strLen (s : String) : Nat := s.data.length

/-- Python `str.strip()`: remove leading and trailing whitespace. -/
def trimStr (s : String) : String :=
  ⟨((s.data.dropWhile Char.isWhitespace).reverse.dropWhile Char.isWhitespace).reverse⟩

/-- Boolean test that `p` is a prefix of `l` (Python `str.startswith`). -/
def charsPre (p l : List Char) : Bool := decide (l.take p.length = p)

/-- Python `a.startswith(b)`. -/
def startsWithStr (s pre : String) : Bool := charsPre pre.data s.data

/-- Python `needle in hay` (substring containment). -/
def substrOf (needle hay : String) : Bool :=
  (List.range (hay.data.length + 1)).any fun i =>
    charsPre needle.data (hay.data.drop i)

/-- Lexicographic order on code points: Python `<=` on `str`, and the order
SQLite uses for `TEXT` comparison (memcmp on UTF-8 agrees with it). -/
def charsLe : List Char → List Char → Bool
  | [], _ => true
  | _ :: _, [] => false
  | x :: xs, y :: ys => if x = y then charsLe xs ys else decide (x < y)

/-- String comparison `a <= b`. -/
def strLe (a b : String) : Bool := charsLe a.data b.data

/-- Python `s.split()` (split on whitespace runs, dropping empty pieces). -/
def splitWs (s : String) : List String :=
  ((s.data.splitOnP Char.isWhitespace).map (fun l => (⟨l⟩ : String))).filter
    (fun p => p ≠ "")

/-- Python `s.split(c)` for a one-character separator (keeps empty pieces). -/
def splitOnChar (c : Char) (s : String) : List String :=
  (s.data.splitOnP (fun d => d = c)).map (fun l => (⟨l⟩ : String))

/-- Replace every occurrence of the character `c` by the string `rep`
(Python `s.replace(c, rep)` and SQLite `REPLACE` for one-character needles). -/
def replaceChar (c : Char) (rep : String) (s : String) : String :=
  ⟨s.data.flatMap (fun d => if d = c then rep.data else [d])⟩

/-- Python `", ".join(names)`. -/
def joinWith (sep : String) : List String → String
  | [] => ""
  | [x] => x
  | x :: xs => x ++ sep ++ joinWith sep xs

/-! ## Stable insertion sort (models Python `list.sort` / SQL `ORDER BY`) -/

/-- Insert `x` before the first element `y` with `le x y` (stable: `x`, which
comes earlier in the original list, stays before elements it ties with). -/
def insertLe (le : α → α → Bool) (x : α) : List α → List α
  | [] => [x]
  | y :: ys => if le x y then x :: y :: ys else y :: insertLe le x ys

/-- Stable insertion sort by the boolean preorder `le`. -/
def sortStable (le : α → α → Bool) : List α → List α
  | [] => []
  | x :: xs => insertLe le x (sortStable le xs)

theorem perm_insertLe (le : α → α → Bool) (x : α) (l : List α) :
    List.Perm (insertLe le x l) (x :: l) := by
  induction l with
  | nil => simp [insertLe]
  | cons y ys ih =>
    simp only [insertLe]
    split
    · exact List.Perm.refl _
    · exact ((ih.cons y).trans (List.Perm.swap x y ys))

theorem sortStable_perm (le : α → α → Bool) (l : List α) :
    List.Perm (sortStable le l) l := by
  induction l with
  | nil => simp [sortStable]
  | cons x xs ih =>
    exact (perm_insertLe le x (sortStable le xs)).trans (ih.cons x)

theorem mem_sortStable (le : α → α → Bool) (l : List α) (a : α) :
    a ∈ sortStable le l ↔ a ∈ l :=
  (sortStable_perm le l).mem_iff

theorem pairwise_insertLe (le : α → α → Bool)
    (htot : ∀ a b, le a b = true ∨ le b a = true)
    (htrans : ∀ a b c, le a b = true → le b c = true → le a c = true)
    (x : α) (l : List α) (h : l.Pairwise (fun a b => le a b = true)) :
    (insertLe le x l).Pairwise (fun a b => le a b = true) := by
  induction l with
  | nil => simp [insertLe]
  | cons y ys ih =>
    rcases List.pairwise_cons.mp h with ⟨hy, hys⟩
    simp only [insertLe]
    split
    · rename_i hxy
      refine List.pairwise_cons.mpr ⟨?_, h⟩
      intro b hb
      rcases List.mem_cons.mp hb with rfl | hb'
      · exact hxy
      · exact htrans x y b hxy (hy b hb')
    · rename_i hxy
      have hyx : le y x = true := by
        rcases htot x y with h1 | h1
        · exact absurd h1 hxy
        · exact h1
      refine List.pairwise_cons.mpr ⟨?_, ih hys⟩
      intro b hb
      have hb' : b = x ∨ b ∈ ys := by
        have := (perm_insertLe le x ys).mem_iff.mp hb
        simpa using this
      rcases hb' with rfl | hb'
      · exact hyx
      · exact hy b hb'

theorem pairwise_sortStable (le : α → α → Bool)
    (htot : ∀ a b, le a b = true ∨ le b a = true)
    (htrans : ∀ a b c, le a b = true → le b c = true → le a c = true)
    (l : List α) :
    (sortStable le l).Pairwise (fun a b => le a b = true) := by
  induction l with
  | nil => simp [sortStable]
  | cons x xs ih => exact pairwise_insertLe le htot htrans x _ ih

/-! ## First-occurrence deduplication (Python `dict.fromkeys`, SQL `GROUP BY`
and `GROUP_CONCAT(DISTINCT ...)` keys) -/

/-- Keep the first occurrence of each element, in order. -/
def dedupKeepFirst [DecidableEq α] (l : List α) : List α :=
  l.foldl (fun acc x => if x ∈ acc then acc else acc ++ [x]) []

theorem mem_dedupKeepFirst_aux [DecidableEq α] (l acc : List α) (a : α) :
    a ∈ l.foldl (fun acc x => if x ∈ acc then acc else acc ++ [x]) acc ↔
      a ∈ acc ∨ a ∈ l := by
  induction l generalizing acc with
  | nil => simp
  | cons x xs ih =>
    simp only [List.foldl_cons, ih]
    split
    · rename_i hx
      constructor
      · rintro (h | h)
        · exact Or.inl h
        · exact Or.inr (List.mem_cons_of_mem x h)
      · rintro (h | h)
        · exact Or.inl h
        · rcases List.mem_cons.mp h with rfl | h
          · exact Or.inl hx
          · exact Or.inr h
    · simp only [List.mem_append, List.mem_singleton, List.mem_cons]
      tauto

theorem mem_dedupKeepFirst [DecidableEq α] (l : List α) (a : α) :
    a ∈ dedupKeepFirst l ↔ a ∈ l := by
  simp [dedupKeepFirst, mem_dedupKeepFirst_aux]

theorem nodup_dedupKeepFirst_aux [DecidableEq α] (l acc : List α)
    (h : acc.Nodup) :
    (l.foldl (fun acc x => if x ∈ acc then acc else acc ++ [x]) acc).Nodup := by
  induction l generalizing acc with
  | nil => simpa
  | cons x xs ih =>
    simp only [List.foldl_cons]
    split
    · exact ih acc h
    · rename_i hx
      exact ih (acc ++ [x]) (by simp [List.nodup_append, h, hx])

theorem nodup_dedupKeepFirst [DecidableEq α] (l : List α) :
    (dedupKeepFirst l).Nodup :=
  nodup_dedupKeepFirst_aux l [] List.nodup_nil

/-! ## The pickle object cache (`src/spotfm/utils.py`)

`cache_object` serialises an object to the file `CACHE_DIR/kind/id.pickle`
(creating or overwriting it); `retrieve_object_from_cache` deserialises that
file when it exists and returns `None` otherwise.  The file system is
modelled as an association list from the path key `(kind, id)` to the stored
object; a fresh write shadows an older one, and pickle round-tripping is
modelled as the identity. -/

/-- A cache store for objects of type `α`, keyed by `(kind, id)`. -/
def CacheStore (α : Type) : Type := List ((String × String) × α)

/-- utils.cache_object: write `o` to `CACHE_DIR/kind/id.pickle`. -/
def cache_object (kindOf idOf : α → String) (store : CacheStore α) (o : α) :
    CacheStore α :=
  ((kindOf o, idOf o), o) :: store

/-- utils.retrieve_object_from_cache: read `CACHE_DIR/kind/id.pickle` when the
file exists, `None` otherwise. -/
def retrieve_object_from_cache [DecidableEq α] (store : CacheStore α)
    (kind id : String) : Option α :=
  (store.find? (fun e => decide (e.1.1 = kind ∧ e.1.2 = id))).map (fun e => e.2)

theorem retrieve_cache_object [DecidableEq α] (kindOf idOf : α → String)
    (store : CacheStore α) (o : α) :
    retrieve_object_from_cache (cache_object kindOf idOf store o)
      (kindOf o) (idOf o) = some o := by
  simp [cache_object, retrieve_object_from_cache, List.find?]

theorem retrieve_empty_miss [DecidableEq α] (objs : List α)
    (kindOf idOf : α → String) (kind id : String)
    (h : ∀ o ∈ objs, ¬(kindOf o = kind ∧ idOf o = id)) :
    retrieve_object_from_cache
      (objs.foldl (cache_object kindOf idOf) ([] : CacheStore α)) kind id
      = none := by
  suffices hgen : ∀ store : CacheStore α,
      retrieve_object_from_cache store kind id = none →
      retrieve_object_from_cache (objs.foldl (cache_object kindOf idOf) store)
        kind id = none by
    exact hgen [] (by simp [retrieve_object_from_cache])
  induction objs with
  | nil => intro store hs; simpa using hs
  | cons o os ih =>
    intro store hs
    simp only [List.foldl_cons]
    refine ih (fun o ho => h o (List.mem_cons_of_mem _ ho)) _ ?_
    have ho : ¬(kindOf o = kind ∧ idOf o = id) := h o (List.mem_cons_self o os)
    simp only [retrieve_object_from_cache, cache_object] at hs ⊢
    rw [List.find?_cons_of_neg]
    · exact hs
    · simpa using ho

/-- C8: object-cache round trip: caching an object and retrieving its
`(kind, id)` key returns the same object, and retrieval from a cache in which
no object with that kind and id was ever cached returns `None`. -/
theorem C8_cache_round_trip :
    (∀ (α : Type) [DecidableEq α] (kindOf idOf : α → String)
        (store : CacheStore α) (o : α),
      retrieve_object_from_cache (cache_object kindOf idOf store o)
        (kindOf o) (idOf o) = some o) ∧
    (∀ (α : Type) [DecidableEq α] (objs : List α)
        (kindOf idOf : α → String) (kind id : String),
      (∀ o ∈ objs, ¬(kindOf o = kind ∧ idOf o = id)) →
      retrieve_object_from_cache
        (objs.foldl (cache_object kindOf idOf) ([] : CacheStore α)) kind id
        = none) :=
  ⟨fun α _ kindOf idOf store o => retrieve_cache_object kindOf idOf store o,
   fun α _ objs kindOf idOf kind id h => retrieve_empty_miss objs kindOf idOf kind id h⟩

/-- C8 witness: the round trip and the miss case evaluated at concrete data. -/
theorem C8_cache_round_trip_witness :
    retrieve_object_from_cache
      (cache_object Prod.fst Prod.snd ([] : CacheStore (String × String))
        ("track", "t1")) "track" "t1" = some ("track", "t1") ∧
    retrieve_object_from_cache
      ([("track", "t1"), ("album", "a1")].foldl
        (cache_object Prod.fst Prod.snd) ([] : CacheStore (String × String)))
      "track" "t9" = none :=
  ⟨C8_cache_round_trip.1 (String × String) Prod.fst Prod.snd [] ("track", "t1"),
   C8_cache_round_trip.2 (String × String) [("track", "t1"), ("album", "a1")]
     Prod.fst Prod.snd "track" "t9" (by decide)⟩

/-! ## Track.get_track (`src/spotfm/spotify/track.py`, lines 39-51)

The three tiers are the pickle object cache, the SQL store, and the remote
API.  The SQL store is modelled by the set of track ids for which
`update_from_db` succeeds; the consultations and writes performed by a fetch
are recorded as an explicit event trace. -/

/-- The provenance a `Track` object ends up with. -/
inductive TrackSrc
  | blank
  | fromDb
  | fromApi
deriving DecidableEq, Repr

/-- A `Track` object: its id plus where its fields were populated from. -/
structure TrackM where
  id : String
  loaded : TrackSrc
deriving DecidableEq, Repr

/-- Tier events of one `get_track` call: a SQL read (`update_from_db`), an
API read (`update_from_api`), an object-cache write (`cache_object`) and a
SQL write (`sync_to_db`). -/
inductive Ev
  | dbRead
  | apiRead
  | cacheWrite
  | dbWrite
deriving DecidableEq, Repr

/-- The environment a fetch runs against: the object cache and the set of
track ids present in the SQL store (ids for which `update_from_db` finds the
track row together with its album link). -/
structure FetchEnv where
  cache : CacheStore TrackM
  dbIds : List String

/-- The body of `Track.get_track` after the cache short-circuit: build a
fresh `Track(id)`, and when a client is given run `update_from_db` and — on
a DB miss or when refresh was requested — `update_from_api`, `cache_object`
and (when `sync_to_db`) `Track.sync_to_db`. -/
def track_fetch_body (env : FetchEnv) (id : String)
    (hasClient refresh sync_to_db : Bool) : TrackM × List Ev :=
  let t := TrackM.mk id TrackSrc.blank
  if hasClient = true then
    if id ∉ env.dbIds ∨ refresh = true then
      (TrackM.mk id TrackSrc.fromApi,
        [Ev.dbRead, Ev.apiRead, Ev.cacheWrite] ++
          (if sync_to_db = true then [Ev.dbWrite] else []))
    else (TrackM.mk id TrackSrc.fromDb, [Ev.dbRead])
  else (t, [])

/-- Track.get_track: consult the object cache; return the cached object
unless a client is given and refresh is requested; otherwise fall through to
the DB/API body.  The returned trace lists the tier accesses performed. -/
def get_track (env : FetchEnv) (id : String)
    (hasClient refresh sync_to_db : Bool) : TrackM × List Ev :=
  match retrieve_object_from_cache env.cache ("track") id with
  | some t =>
    if hasClient = false ∨ refresh = false then (t, [])
    else track_fetch_body env id hasClient refresh sync_to_db
  | none => track_fetch_body env id hasClient refresh sync_to_db

/-- C1: the read-through fetch consults object cache, then SQL store, then
API: a cached object is returned with no SQL or API access when refresh is
not requested or no client is given; on a cache miss any API access is
preceded by a SQL access; and an API fetch writes the object cache and, when
`sync_to_db` is set, the SQL store. -/
theorem C1_get_track_read_through (env : FetchEnv) (id : String)
    (hasClient refresh sync_to_db : Bool) :
    (∀ t, retrieve_object_from_cache env.cache ("track") id = some t →
      hasClient = false ∨ refresh = false →
      get_track env id hasClient refresh sync_to_db = (t, [])) ∧
    (retrieve_object_from_cache env.cache ("track") id = none →
      Ev.apiRead ∈ (get_track env id hasClient refresh sync_to_db).2 →
      Ev.dbRead ∈ (get_track env id hasClient refresh sync_to_db).2 ∧
        (get_track env id hasClient refresh sync_to_db).2.indexOf Ev.dbRead <
          (get_track env id hasClient refresh sync_to_db).2.indexOf Ev.apiRead) ∧
    (Ev.apiRead ∈ (get_track env id hasClient refresh sync_to_db).2 →
      Ev.cacheWrite ∈ (get_track env id hasClient refresh sync_to_db).2 ∧
        (sync_to_db = true →
          Ev.dbWrite ∈ (get_track env id hasClient refresh sync_to_db).2)) := by
  refine ⟨?_, ?_, ?_⟩
  · intro t hc hcond
    simp [get_track, hc, if_pos hcond]
  · intro hc
    simp only [get_track, hc, track_fetch_body]
    split
    · split
      · cases sync_to_db <;> intro hmem <;> simp_all <;> decide
      · intro hmem; simp_all
    · intro hmem; simp_all
  · cases hc : retrieve_object_from_cache env.cache ("track") id with
    | some t =>
      simp only [get_track, hc]
      split
      · intro hmem; simp_all
      · simp only [track_fetch_body]
        split
        · split
          · cases sync_to_db <;> intro hmem <;> simp_all <;> decide
          · intro hmem; simp_all
        · intro hmem; simp_all
    | none =>
      simp only [get_track, hc, track_fetch_body]
      split
      · split
        · cases sync_to_db <;> intro hmem <;> simp_all <;> decide
        · intro hmem; simp_all
      · intro hmem; simp_all

/-- C1 witness: all three conjuncts discharged at concrete inputs: a cache
hit with no client returns the cached object with an empty trace, and a
cache-miss refreshing fetch reads the DB before the API and writes both the
cache and the DB. -/
theorem C1_get_track_read_through_witness :
    get_track ⟨[(("track", "t1"), TrackM.mk "t1" TrackSrc.fromApi)], []⟩
      "t1" false false false = (TrackM.mk "t1" TrackSrc.fromApi, []) ∧
    (Ev.dbRead ∈ (get_track ⟨[], []⟩ "t2" true true true).2 ∧
      (get_track ⟨[], []⟩ "t2" true true true).2.indexOf Ev.dbRead <
        (get_track ⟨[], []⟩ "t2" true true true).2.indexOf Ev.apiRead) ∧
    (Ev.cacheWrite ∈ (get_track ⟨[], []⟩ "t2" true true true).2 ∧
      (true = true → Ev.dbWrite ∈ (get_track ⟨[], []⟩ "t2" true true true).2)) :=
  ⟨(C1_get_track_read_through
      ⟨[(("track", "t1"), TrackM.mk "t1" TrackSrc.fromApi)], []⟩
      "t1" false false false).1 (TrackM.mk "t1" TrackSrc.fromApi)
      (by decide) (Or.inl rfl),
   (C1_get_track_read_through ⟨[], []⟩ "t2" true true true).2.1
      (by decide) (by decide),
   (C1_get_track_read_through ⟨[], []⟩ "t2" true true true).2.2 (by decide)⟩

/-! ## Catch-and-log failure handling (C7)

`misc.add_tracks_from_file_batch` wraps each `track.sync_to_db(client)` call
in `try/except Exception`, logging and continuing; phase 7 of
`Track.get_tracks` wraps each raw-track conversion in
`try/except (TypeError, KeyError)`.  Raising is modelled with `Except`: the
predicate `syncOk` says which syncs succeed, and `parse` returns `none` for
a malformed raw track. -/

/-- One `track.sync_to_db(client)` call: appends the id to the store or
raises. -/
def track_sync_to_db (syncOk : String → Bool) (db : List String)
    (tid : String) : Except String (List String) :=
  if syncOk tid then Except.ok (db ++ [tid]) else Except.error tid

/-- The sync loop of `add_tracks_from_file_batch`: each failure is caught
and logged (collected in the second component) and the loop continues with
the database state left by the successful syncs. -/
def add_tracks_sync_loop (syncOk : String → Bool) :
    List String → List String → List String × List String
  | [], db => (db, [])
  | tid :: rest, db =>
    match track_sync_to_db syncOk db tid with
    | Except.ok db1 => add_tracks_sync_loop syncOk rest db1
    | Except.error e =>
      let r := add_tracks_sync_loop syncOk rest db
      (r.1, e :: r.2)

/-- Phase 7 of `Track.get_tracks`: convert each raw API track to a `Track`,
appending it to the accumulated list; a malformed raw track (`parse` returns
`none`, modelling the caught `TypeError`/`KeyError`) is logged and skipped. -/
def get_tracks_phase7 (parse : ρ → Option τ) : List ρ → List τ → List τ
  | [], tracks => tracks
  | raw :: rest, tracks =>
    match parse raw with
    | some t => get_tracks_phase7 parse rest (tracks ++ [t])
    | none => get_tracks_phase7 parse rest tracks

theorem add_tracks_sync_loop_eq (syncOk : String → Bool) (tids db : List String) :
    add_tracks_sync_loop syncOk tids db =
      (db ++ tids.filter syncOk, tids.filter (fun t => !syncOk t)) := by
  induction tids generalizing db with
  | nil => simp [add_tracks_sync_loop]
  | cons t ts ih =>
    simp only [add_tracks_sync_loop, track_sync_to_db]
    by_cases h : syncOk t = true
    · simp [h, ih]
    · simp only [Bool.not_eq_true] at h
      simp [h, ih]

theorem get_tracks_phase7_eq (parse : ρ → Option τ) (raws : List ρ)
    (tracks : List τ) :
    get_tracks_phase7 parse raws tracks = tracks ++ raws.filterMap parse := by
  induction raws generalizing tracks with
  | nil => simp [get_tracks_phase7]
  | cons r rs ih =>
    simp only [get_tracks_phase7]
    cases h : parse r with
    | some t => simp [h, ih]
    | none => simp [h, ih]

/-- C7: batch ingestion failure handling is catch-and-log only: the sync
loop of `add_tracks_from_file_batch` syncs exactly the tracks whose sync
succeeds — a failure neither stops the remaining tracks from being
processed nor undoes earlier successful syncs — and phase 7 of
`Track.get_tracks` converts exactly the well-formed raw tracks, skipping
each malformed one without aborting the batch. -/
theorem C7_catch_and_log :
    (∀ (syncOk : String → Bool) (tids db : List String),
      add_tracks_sync_loop syncOk tids db =
        (db ++ tids.filter syncOk, tids.filter (fun t => !syncOk t))) ∧
    (∀ (ρ τ : Type) (parse : ρ → Option τ) (raws : List ρ) (tracks : List τ),
      get_tracks_phase7 parse raws tracks = tracks ++ raws.filterMap parse) :=
  ⟨add_tracks_sync_loop_eq, fun ρ τ => get_tracks_phase7_eq⟩

/-! ## playlists_tracks rows and the discovery workflow (C4)

`misc.discover_from_playlists` collects, per source playlist, the tracks
for which `update_from_db` fails, syncs the collected tracks to the
database after each playlist, and finally adds the collected tracks to the
discover playlist.  The discover playlist is fetched but its contents are
never consulted. -/

/-- A row of the `playlists_tracks` join table. -/
structure PTRow where
  playlist_id : String
  track_id : String
  added_at : String
deriving DecidableEq, Repr

/-- Track.is_orphaned: `COUNT(*)` of `playlists_tracks` rows with this
track id is zero. -/
def is_orphaned (pt : List PTRow) (tid : String) : Bool :=
  decide ((pt.countP (fun r => decide (r.track_id = tid))) = 0)

/-- The environment of a discovery run: the set of track ids for which
`Track.update_from_db` succeeds, and the `playlists_tracks` rows consulted
by `Track.is_orphaned`. -/
structure DiscoverEnv where
  dbTracks : List String
  ptRows : List PTRow

/-- The inner track loop of `discover_from_playlists` for one source
playlist: append tracks not found in the DB; skip orphaned tracks and
tracks that are in other playlists. -/
def discover_playlist_scan (env : DiscoverEnv) (dbT : List String)
    (newTracks : List String) (pl : List String) : List String :=
  pl.foldl (fun acc tid =>
    if tid ∉ dbT then acc ++ [tid]
    else if is_orphaned env.ptRows tid then acc
    else acc) newTracks

/-- The per-playlist `track.sync_to_db` pass over the accumulated
new_tracks: `INSERT OR REPLACE` / `INSERT OR IGNORE` make `update_from_db`
succeed for each synced id. -/
def sync_new_tracks (dbT : List String) (newTracks : List String) :
    List String :=
  newTracks.foldl (fun d t => if t ∈ d then d else d ++ [t]) dbT

/-- The outer playlist loop of `discover_from_playlists`. -/
def discover_loop (env : DiscoverEnv) :
    List (List String) → List String → List String → List String
  | [], _dbT, newTracks => newTracks
  | pl :: rest, dbT, newTracks =>
    let newTracks1 := discover_playlist_scan env dbT newTracks pl
    discover_loop env rest (sync_new_tracks dbT newTracks1) newTracks1

/-- misc.discover_from_playlists: the list of track ids collected in
`new_tracks` and added to the discover playlist at the end. -/
def discover_from_playlists (env : DiscoverEnv)
    (sources : List (List String)) : List String :=
  discover_loop env sources env.dbTracks []

/-- Modelled from the claim's wording (for refutation): the discovery
workflow as a diff of two playlist sets — tracks occurring in the source
playlists that are not already in the discover playlist. -/
def specDiscoverDiff (discoverTracks : List String)
    (sources : List (List String)) : List String :=
  (sources.flatMap (fun pl => pl)).filter (fun t => t ∉ discoverTracks)

theorem discover_playlist_scan_eq (env : DiscoverEnv) (dbT newT pl : List String) :
    discover_playlist_scan env dbT newT pl =
      newT ++ pl.filter (fun t => t ∉ dbT) := by
  induction pl generalizing newT with
  | nil => simp [discover_playlist_scan]
  | cons t ts ih =>
    simp only [discover_playlist_scan, List.foldl_cons] at ih ⊢
    by_cases h : t ∈ dbT
    · rw [if_neg (by simpa using h)]
      rw [ite_self, ih]
      simp [List.filter_cons, h]
    · rw [if_pos (by simpa using h), ih]
      simp [List.filter_cons, h]

theorem mem_sync_new_tracks (dbT newT : List String) (t : String) :
    t ∈ sync_new_tracks dbT newT ↔ t ∈ dbT ∨ t ∈ newT := by
  unfold sync_new_tracks
  induction newT generalizing dbT with
  | nil => simp
  | cons x xs ih =>
    simp only [List.foldl_cons]
    by_cases h : x ∈ dbT
    · rw [if_pos h, ih]
      constructor
      · rintro (h1 | h1)
        · exact Or.inl h1
        · exact Or.inr (List.mem_cons_of_mem x h1)
      · rintro (h1 | h1)
        · exact Or.inl h1
        · rcases List.mem_cons.mp h1 with rfl | h1
          · exact Or.inl h
          · exact Or.inr h1
    · rw [if_neg h, ih]
      simp only [List.mem_append, List.mem_singleton, List.mem_cons]
      tauto

theorem discover_loop_mem (env : DiscoverEnv) (sources : List (List String)) :
    ∀ (dbT newT : List String) (t : String),
      t ∈ discover_loop env sources dbT newT ↔
        t ∈ newT ∨ ((∃ pl ∈ sources, t ∈ pl) ∧ t ∉ dbT ∧ t ∉ newT) := by
  induction sources with
  | nil => intro dbT newT t; simp [discover_loop]
  | cons pl rest ih =>
    intro dbT newT t
    simp only [discover_loop]
    rw [ih, discover_playlist_scan_eq]
    have hsync : t ∈ sync_new_tracks dbT (newT ++ pl.filter (fun t => t ∉ dbT)) ↔
        t ∈ dbT ∨ t ∈ newT ++ pl.filter (fun t => t ∉ dbT) :=
      mem_sync_new_tracks _ _ t
    simp only [hsync, List.mem_append, List.mem_filter, decide_eq_true_eq,
      List.mem_cons, List.exists_mem_cons_iff]
    by_cases hdb : t ∈ dbT <;> by_cases hnew : t ∈ newT <;>
      by_cases hpl : t ∈ pl <;> simp [hdb, hnew, hpl] <;> tauto

/-- C4 (amended): `discover_from_playlists` adds exactly the tracks that
occur in some source playlist and are not found in the local track
database; the discover playlist's own contents play no role. -/
theorem C4_discover_adds_db_unknown (env : DiscoverEnv)
    (sources : List (List String)) (t : String) :
    t ∈ discover_from_playlists env sources ↔
      (∃ pl ∈ sources, t ∈ pl) ∧ t ∉ env.dbTracks := by
  unfold discover_from_playlists
  rw [discover_loop_mem]
  simp

/-- C4 counterexample: a track present in a source playlist and absent from
the discover playlist, but already known to the database, is not added —
the workflow is not the claimed diff of the two playlist sets. -/
theorem C4_counterexample :
    "t1" ∈ specDiscoverDiff [] [["t1"]] ∧
    "t1" ∉ discover_from_playlists ⟨["t1"], []⟩ [["t1"]] := by
  constructor
  · decide
  · decide

/-! ## Playlist.sync_to_db frame property (C9)

`Playlist.sync_to_db` (`src/spotfm/spotify/playlist.py`, lines 115-132)
deletes every `playlists_tracks` row of this playlist and re-inserts one row
per `raw_tracks` element with `INSERT OR IGNORE`.  The table's PRIMARY KEY is
`(playlist_id, track_id)` (schema in `src/tests/conftest.py`; the behaviour
is asserted by `test_sync_to_db_handles_duplicate_tracks`), so a conflicting
insert — same playlist and track, any `added_at` — is ignored. -/

/-- `INSERT OR IGNORE INTO playlists_tracks`: ignored when a row with the
same `(playlist_id, track_id)` primary key already exists. -/
def insertOrIgnorePT (rows : List PTRow) (row : PTRow) : List PTRow :=
  if rows.any (fun r =>
      decide (r.playlist_id = row.playlist_id ∧ r.track_id = row.track_id))
  then rows
  else rows ++ [row]

/-- Playlist.sync_to_db, restricted to its effect on the `playlists_tracks`
table: `DELETE FROM playlists_tracks WHERE playlist_id = pid`, then one
`INSERT OR IGNORE` per `(track_id, added_at)` element of `raw_tracks`. -/
def playlist_sync_to_db_pt (rows : List PTRow) (pid : String)
    (raw_tracks : List (String × String)) : List PTRow :=
  let deleted := rows.filter (fun r => decide (¬ r.playlist_id = pid))
  raw_tracks.foldl
    (fun acc ta => insertOrIgnorePT acc (PTRow.mk pid ta.1 ta.2)) deleted

/-- First-occurrence deduplication by a key function (which `(track_id,
added_at)` pairs survive the `INSERT OR IGNORE` pass). -/
def dedupByKey [DecidableEq β] (key : α → β) (l : List α) : List α :=
  l.foldl
    (fun acc x => if acc.any (fun y => decide (key y = key x)) then acc
     else acc ++ [x]) []

theorem any_map_general (f : α → β) (p : β → Bool) (l : List α) :
    (l.map f).any p = l.any (fun x => p (f x)) := by
  induction l with
  | nil => rfl
  | cons x xs ih => simp [ih]

theorem insertOrIgnorePT_append_map (pid : String) (base : List PTRow)
    (hbase : ∀ r ∈ base, ¬ r.playlist_id = pid)
    (d : List (String × String)) (ta : String × String) :
    insertOrIgnorePT (base ++ d.map (fun p => PTRow.mk pid p.1 p.2))
        (PTRow.mk pid ta.1 ta.2) =
      base ++ ((if d.any (fun y => decide (y.1 = ta.1)) then d
        else d ++ [ta]).map (fun p => PTRow.mk pid p.1 p.2)) := by
  have hcond : (base ++ d.map (fun p => PTRow.mk pid p.1 p.2)).any
      (fun r => decide (r.playlist_id = pid ∧ r.track_id = ta.1)) =
      d.any (fun y => decide (y.1 = ta.1)) := by
    rw [List.any_append, any_map_general]
    have hb : base.any
        (fun r => decide (r.playlist_id = pid ∧ r.track_id = ta.1)) = false := by
      simp only [List.any_eq_false, decide_eq_true_eq, not_and]
      intro r hr h
      exact absurd h (hbase r hr)
    rw [hb, Bool.false_or]
    congr 1
    funext p
    simp
  simp only [insertOrIgnorePT]
  rw [hcond]
  cases hdup : d.any (fun y => decide (y.1 = ta.1)) with
  | true => simp
  | false => simp

theorem playlist_sync_aux (pid : String) (base : List PTRow)
    (hbase : ∀ r ∈ base, ¬ r.playlist_id = pid) :
    ∀ (raw d : List (String × String)),
      raw.foldl (fun acc ta => insertOrIgnorePT acc (PTRow.mk pid ta.1 ta.2))
        (base ++ d.map (fun ta => PTRow.mk pid ta.1 ta.2)) =
      base ++
        (raw.foldl
          (fun d ta => if d.any (fun y => decide (y.1 = ta.1)) then d
           else d ++ [ta]) d).map
          (fun ta => PTRow.mk pid ta.1 ta.2) := by
  intro raw
  induction raw with
  | nil => intro d; simp
  | cons ta rest ih =>
    intro d
    simp only [List.foldl_cons]
    rw [insertOrIgnorePT_append_map pid base hbase d ta]
    exact ih _

theorem playlist_sync_to_db_pt_eq (rows : List PTRow) (pid : String)
    (raw : List (String × String)) :
    playlist_sync_to_db_pt rows pid raw =
      rows.filter (fun r => decide (¬ r.playlist_id = pid)) ++
        (dedupByKey Prod.fst raw).map (fun ta => PTRow.mk pid ta.1 ta.2) := by
  unfold playlist_sync_to_db_pt dedupByKey
  have h := playlist_sync_aux pid
    (rows.filter (fun r => decide (¬ r.playlist_id = pid)))
    (by intro r hr
        have := List.mem_filter.mp hr
        simpa using this.2) raw []
  simpa using h

/-- C9 (amended): `Playlist.sync_to_db` replaces the `playlists_tracks`
rows of this playlist with one row per distinct track id of `raw_tracks` —
the first `(track_id, added_at)` occurrence wins and later occurrences of
the same track are ignored (PRIMARY KEY `(playlist_id, track_id)`) — and
leaves the rows of every other playlist unchanged. -/
theorem C9_playlist_sync_frame (rows : List PTRow) (pid : String)
    (raw : List (String × String)) :
    (playlist_sync_to_db_pt rows pid raw).filter
        (fun r => decide (r.playlist_id = pid)) =
      (dedupByKey Prod.fst raw).map (fun ta => PTRow.mk pid ta.1 ta.2) ∧
    (∀ q, q ≠ pid →
      (playlist_sync_to_db_pt rows pid raw).filter
          (fun r => decide (r.playlist_id = q)) =
        rows.filter (fun r => decide (r.playlist_id = q))) := by
  rw [playlist_sync_to_db_pt_eq]
  constructor
  · rw [List.filter_append]
    have h1 : (rows.filter (fun r => decide (¬ r.playlist_id = pid))).filter
        (fun r => decide (r.playlist_id = pid)) = [] := by
      rw [List.filter_filter]
      apply List.filter_eq_nil_iff.mpr
      intro r _
      simp only [Bool.and_eq_true, decide_eq_true_eq]
      tauto
    have h2 : ((dedupByKey Prod.fst raw).map
        (fun ta => PTRow.mk pid ta.1 ta.2)).filter
        (fun r => decide (r.playlist_id = pid)) =
        (dedupByKey Prod.fst raw).map (fun ta => PTRow.mk pid ta.1 ta.2) := by
      apply List.filter_eq_self.mpr
      intro r hr
      rcases List.mem_map.mp hr with ⟨ta, _, rfl⟩
      simp
    rw [h1, h2]
    simp
  · intro q hq
    rw [List.filter_append]
    have h2 : ((dedupByKey Prod.fst raw).map
        (fun ta => PTRow.mk pid ta.1 ta.2)).filter
        (fun r => decide (r.playlist_id = q)) = [] := by
      apply List.filter_eq_nil_iff.mpr
      intro r hr
      rcases List.mem_map.mp hr with ⟨ta, _, rfl⟩
      simpa using fun h => absurd h.symm hq
    rw [h2, List.filter_filter, List.append_nil]
    apply List.filter_congr
    intro r _
    by_cases h : r.playlist_id = q
    · simp [h, fun hc : q = pid => hq hc]
    · simp [h]

/-- C9 counterexample: the same track added twice with different `added_at`
values yields a single row (the first occurrence), not one row per distinct
`(track_id, added_at)` pair as the claim states. -/
theorem C9_counterexample :
    playlist_sync_to_db_pt [] "p" [("t", "a1"), ("t", "a2")] =
      [PTRow.mk "p" "t" "a1"] ∧
    PTRow.mk "p" "t" "a2" ∉
      playlist_sync_to_db_pt [] "p" [("t", "a1"), ("t", "a2")] := by
  constructor
  · decide
  · decide

/-- C9 witness: the amended theorem applied at the counterexample's input
and at a second playlist's row, showing the frame part. -/
theorem C9_playlist_sync_frame_witness :
    (playlist_sync_to_db_pt [PTRow.mk "q" "t" "a0"] "p"
        [("t", "a1"), ("t", "a2")]).filter
        (fun r => decide (r.playlist_id = "p")) =
      [PTRow.mk "p" "t" "a1"] ∧
    (playlist_sync_to_db_pt [PTRow.mk "q" "t" "a0"] "p"
        [("t", "a1"), ("t", "a2")]).filter
        (fun r => decide (r.playlist_id = "q")) =
      [PTRow.mk "q" "t" "a0"] := by
  have h := C9_playlist_sync_frame [PTRow.mk "q" "t" "a0"] "p"
    [("t", "a1"), ("t", "a2")]
  refine ⟨?_, ?_⟩
  · rw [h.1]; decide
  · rw [h.2 "q" (by decide)]; decide

/-! ## Relink detection (C5)

`misc.find_relinked_tracks` reads the playlist table (minus exclusions),
fetches each playlist's items with `linked_from` information from the API,
and reports each relinked item whose original track metadata differs from
the replacement's.  The API client is modelled by the `items` and
`originals` environment functions; a failed original-track fetch
(`originals` returns `none`, the caught exception) yields the
"Unknown"/"Unknown" fallback metadata. -/

/-- A track object inside a playlist item, as returned by
`client.playlist_items` with the `linked_from` field. -/
structure ItemTrack where
  id : String
  name : String
  artists : List String
  linked_from : Option String
deriving DecidableEq, Repr

/-- A playlist item (`added_at` plus an optional track). -/
structure PlItem where
  added_at : String
  track : Option ItemTrack
deriving DecidableEq, Repr

/-- Environment of a relink scan: the `playlists` table and the API client
(items per playlist id; original-track lookup returning name and artist
names, or `none` when the fetch raises). -/
structure RelinkEnv where
  playlists : List (String × String)
  items : String → List PlItem
  originals : String → Option (String × List String)

/-- A reported relinked track.  The Python dict stores the formatted strings
`original_track = f"{original_artists} - {original_name}"` and
`replacement_track = f"{artists} - {track_name}"`; the components are kept
here so the claim can speak about them. -/
structure RelinkEntry where
  playlist_id : String
  playlist_name : String
  original_id : String
  original_name : String
  original_artists : String
  replacement_id : String
  track_name : String
  artists : String
  added_at : String
deriving DecidableEq, Repr

/-- The original track's (name, artists-string), with the catch-and-log
fallback to "Unknown" when the fetch fails. -/
def relinkOrig (env : RelinkEnv) (origId : String) : String × String :=
  match env.originals origId with
  | some p => (p.1, joinWith ", " p.2)
  | none => ("Unknown", "Unknown")

/-- Processing of one playlist item inside `find_relinked_tracks`: skip
items without a track or without `linked_from`; report the item when the
original's artists string or name differs from the replacement's. -/
def relinked_of_item (env : RelinkEnv) (pid pname : String)
    (item : PlItem) : List RelinkEntry :=
  match item.track with
  | none => []
  | some tr =>
    match tr.linked_from with
    | none => []
    | some origId =>
      let artists := joinWith ", " tr.artists
      let orig := relinkOrig env origId
      if orig.2 ≠ artists ∨ orig.1 ≠ tr.name then
        [⟨pid, pname, origId, orig.1, orig.2, tr.id, tr.name, artists,
          item.added_at⟩]
      else []

/-- misc.find_relinked_tracks. -/
def find_relinked_tracks (env : RelinkEnv) (excluded : List String) :
    List RelinkEntry :=
  (env.playlists.filter (fun p => p.1 ∉ excluded)).flatMap
    (fun p => (env.items p.1).flatMap (relinked_of_item env p.1 p.2))

/-- C5: every reported entry corresponds to a playlist item carrying a
`linked_from` original id, its original metadata is the (possibly
"Unknown"-fallback) fetched name and artists string of that original, and
its original artists string or name differs from the replacement's — so
relinked items with identical metadata are never reported. -/
theorem C5_relinked_tracks (env : RelinkEnv) (excluded : List String)
    (e : RelinkEntry) (he : e ∈ find_relinked_tracks env excluded) :
    (∃ p ∈ env.playlists, p.1 ∉ excluded ∧ p.1 = e.playlist_id ∧
      p.2 = e.playlist_name ∧
      ∃ item ∈ env.items p.1, ∃ tr, item.track = some tr ∧
        tr.linked_from = some e.original_id ∧ tr.id = e.replacement_id ∧
        tr.name = e.track_name ∧ joinWith ", " tr.artists = e.artists ∧
        item.added_at = e.added_at) ∧
    relinkOrig env e.original_id = (e.original_name, e.original_artists) ∧
    (e.original_artists ≠ e.artists ∨ e.original_name ≠ e.track_name) := by
  unfold find_relinked_tracks at he
  rcases List.mem_flatMap.mp he with ⟨p, hp, he1⟩
  rcases List.mem_filter.mp hp with ⟨hpmem, hpexcl⟩
  rcases List.mem_flatMap.mp he1 with ⟨item, hitem, he2⟩
  rcases item with ⟨added, track⟩
  cases track with
  | none => simp [relinked_of_item] at he2
  | some tr =>
    cases hlf : tr.linked_from with
    | none => simp [relinked_of_item, hlf] at he2
    | some origId =>
      simp only [relinked_of_item, hlf] at he2
      split at he2
      · rename_i hne
        rcases List.mem_singleton.mp he2 with rfl
        refine ⟨⟨p, hpmem, by simpa using hpexcl, rfl, rfl,
          ⟨added, some tr⟩, hitem, tr, rfl, by simpa using hlf,
          rfl, rfl, rfl, rfl⟩, ?_, ?_⟩
        · rfl
        · simpa using hne
      · simp at he2

/-- Concrete environment for the C5 witness: one playlist with one relinked
item whose original track has a different name. -/
def relinkEnvW : RelinkEnv :=
  ⟨[("p1", "Pl")],
   fun pid => if pid = "p1" then
      [PlItem.mk "2024"
        (some (ItemTrack.mk "new1" "NewName" ["A"] (some "old1")))]
    else [],
   fun oid => if oid = "old1" then some ("OldName", ["A"]) else none⟩

/-- The entry reported for `relinkEnvW`. -/
def relinkEntryW : RelinkEntry :=
  RelinkEntry.mk "p1" "Pl" "old1" "OldName" "A" "new1" "NewName" "A" "2024"

/-- C5 witness: a relinked item with a changed name is reported; the
theorem's conclusions evaluated at that concrete environment. -/
theorem C5_relinked_tracks_witness :
    (∃ p ∈ relinkEnvW.playlists, p.1 ∉ ([] : List String) ∧
      p.1 = relinkEntryW.playlist_id ∧ p.2 = relinkEntryW.playlist_name ∧
      ∃ item ∈ relinkEnvW.items p.1, ∃ tr, item.track = some tr ∧
        tr.linked_from = some relinkEntryW.original_id ∧
        tr.id = relinkEntryW.replacement_id ∧
        tr.name = relinkEntryW.track_name ∧
        joinWith ", " tr.artists = relinkEntryW.artists ∧
        item.added_at = relinkEntryW.added_at) ∧
    relinkOrig relinkEnvW relinkEntryW.original_id =
      (relinkEntryW.original_name, relinkEntryW.original_artists) ∧
    (relinkEntryW.original_artists ≠ relinkEntryW.artists ∨
      relinkEntryW.original_name ≠ relinkEntryW.track_name) :=
  C5_relinked_tracks relinkEnvW [] relinkEntryW (by decide)

/-! ## The relational store and exact-ID duplicate detection (C2)

`src/spotfm/spotify/dupes.py`.  The database is the set of tables created in
the schema (`src/tests/conftest.py`); each table is a list of rows.  The
`GROUP_CONCAT(... , '|||')`/split round trip of the playlists column is
modelled as the list of `(id, name)` pairs itself. -/

/-- The relational store: tracks, playlists, albums, artists, genres and
their join tables. -/
structure Db where
  tracks : List (String × String)
  playlists : List (String × String)
  playlists_tracks : List PTRow
  albums : List (String × String × String)
  albums_tracks : List (String × String)
  tracks_artists : List (String × String)
  artists : List (String × String)
  artists_genres : List (String × String)
deriving Repr

/-- The artists column of the duplicate queries:
`REPLACE(GROUP_CONCAT(DISTINCT name), ',', ', ')` over the artists joined
through `tracks_artists` (SQL `NULL` for a track without artists becomes
`""` via Python's `artists or ""`). -/
def track_artists_str (db : Db) (tid : String) : String :=
  let names := (db.tracks_artists.filter (fun ta => decide (ta.1 = tid))).flatMap
    (fun ta => (db.artists.filter (fun a => decide (a.1 = ta.2))).map
      (fun a => a.2))
  replaceChar ',' ", " (joinWith "," (dedupKeepFirst names))

/-- The per-track join rows `playlists_tracks ⋈ playlists` with the
exclusion filter (`p.id NOT IN excluded`): the `(playlist id, playlist
name)` pairs aggregated into the playlists column. -/
def track_playlists (db : Db) (excluded : List String) (tid : String) :
    List (String × String) :=
  (db.playlists_tracks.filter (fun r => decide (r.track_id = tid))).flatMap
    (fun r => db.playlists.filter
      (fun p => decide (p.1 = r.playlist_id ∧ p.1 ∉ excluded)))

/-- One aggregated row of `get_tracks_with_playlists_optimized` (the Python
dict value, with the dict key `id` kept as a field). -/
structure TrackInfo where
  id : String
  name : String
  artists : String
  playlists : List (String × String)
  playlist_count : Nat
  full_name : String
deriving DecidableEq, Repr

/-- dupes.get_tracks_with_playlists_optimized: one entry per `GROUP BY
(t.id, t.name)` group of the tracks table (id is the PRIMARY KEY) having at
least one qualifying join row, with `COUNT(DISTINCT p.id)` as the playlist
count, ordered by that count descending. -/
def get_tracks_with_playlists_optimized (db : Db) (excluded : List String) :
    List TrackInfo :=
  let infos := (dedupKeepFirst db.tracks).filterMap (fun tr =>
    let pls := track_playlists db excluded tr.1
    if pls = [] then none
    else
      let artists := track_artists_str db tr.1
      some (TrackInfo.mk tr.1 tr.2 artists pls
        ((pls.map (fun p => p.1)).dedup).length
        (if artists = "" then tr.2 else artists ++ " - " ++ tr.2)))
  sortStable (fun a b => decide (b.playlist_count ≤ a.playlist_count)) infos

/-- A reported exact-ID duplicate.  The Python dict stores the formatted
`track`, `count` and `playlists` strings; the group's track id and the
unformatted pair list are kept as fields so the claim can speak about
them. -/
structure DupIdEntry where
  id : String
  track : String
  count : Nat
  playlistPairs : List (String × String)
  playlists : String
deriving DecidableEq, Repr

/-- dupes.find_duplicate_ids: the tracks whose aggregated playlist count
exceeds one, reported with their count and playlist list. -/
def find_duplicate_ids (db : Db) (excluded : List String) : List DupIdEntry :=
  (get_tracks_with_playlists_optimized db excluded).filterMap (fun ti =>
    if 1 < ti.playlist_count then
      some (DupIdEntry.mk ti.id ti.full_name ti.playlist_count ti.playlists
        (joinWith "," (ti.playlists.map (fun p => p.1 ++ "_" ++ p.2))))
    else none)

/-- The claim's counting: the distinct playlists not in the excluded list
that contain the track, read directly off the two tables. -/
def containing_playlists (db : Db) (excluded : List String) (tid : String) :
    List String :=
  (db.playlists.filter (fun p => decide (p.1 ∉ excluded ∧
    ∃ r ∈ db.playlists_tracks, r.playlist_id = p.1 ∧ r.track_id = tid))).map
    (fun p => p.1)

theorem mem_track_playlists (db : Db) (excluded : List String) (tid : String)
    (pr : String × String) :
    pr ∈ track_playlists db excluded tid ↔
      pr ∈ db.playlists ∧ pr.1 ∉ excluded ∧
        ∃ r ∈ db.playlists_tracks, r.playlist_id = pr.1 ∧ r.track_id = tid := by
  unfold track_playlists
  simp only [List.mem_flatMap, List.mem_filter, decide_eq_true_eq]
  constructor
  · rintro ⟨r, ⟨hr, hrtid⟩, hpmem, hpid, hexcl⟩
    exact ⟨hpmem, hexcl, r, hr, hpid.symm, hrtid⟩
  · rintro ⟨hpmem, hexcl, r, hr, hpid, hrtid⟩
    exact ⟨r, ⟨hr, hrtid⟩, hpmem, hpid.symm, hexcl⟩

theorem track_playlists_count (db : Db) (excluded : List String)
    (tid : String) (hp : (db.playlists.map (fun p => p.1)).Nodup) :
    ((track_playlists db excluded tid).map (fun p => p.1)).dedup.length =
      (containing_playlists db excluded tid).length := by
  have hA : ((track_playlists db excluded tid).map (fun p => p.1)).dedup.Nodup :=
    List.nodup_dedup _
  have hB : (containing_playlists db excluded tid).Nodup := by
    unfold containing_playlists
    exact (List.Sublist.map (fun p : String × String => p.1)
      (List.filter_sublist _)).nodup hp
  have hmem : ∀ x,
      x ∈ ((track_playlists db excluded tid).map (fun p => p.1)).dedup ↔
      x ∈ containing_playlists db excluded tid := by
    intro x
    rw [List.mem_dedup]
    unfold containing_playlists
    simp only [List.mem_map, List.mem_filter, decide_eq_true_eq]
    constructor
    · rintro ⟨pr, hpr, rfl⟩
      rcases (mem_track_playlists db excluded tid pr).mp hpr with
        ⟨hpmem, hexcl, hr⟩
      exact ⟨pr, ⟨hpmem, hexcl, hr⟩, rfl⟩
    · rintro ⟨pr, ⟨hpmem, hexcl, hr⟩, rfl⟩
      exact ⟨pr, (mem_track_playlists db excluded tid pr).mpr
        ⟨hpmem, hexcl, hr⟩, rfl⟩
  have hperm := List.perm_of_nodup_nodup_toFinset_eq hA hB
    (Finset.ext (fun x => by
      simp only [List.mem_toFinset]
      exact hmem x))
  exact hperm.length_eq

theorem mem_get_tracks_opt (db : Db) (excluded : List String)
    (ti : TrackInfo) :
    ti ∈ get_tracks_with_playlists_optimized db excluded ↔
      ∃ tr ∈ dedupKeepFirst db.tracks,
        track_playlists db excluded tr.1 ≠ [] ∧
        ti = TrackInfo.mk tr.1 tr.2 (track_artists_str db tr.1)
          (track_playlists db excluded tr.1)
          (((track_playlists db excluded tr.1).map (fun p => p.1)).dedup).length
          (if track_artists_str db tr.1 = "" then tr.2
           else track_artists_str db tr.1 ++ " - " ++ tr.2) := by
  unfold get_tracks_with_playlists_optimized
  rw [mem_sortStable, List.mem_filterMap]
  constructor
  · rintro ⟨tr, htr, hsome⟩
    by_cases hpls : track_playlists db excluded tr.1 = []
    · rw [if_pos hpls] at hsome
      exact absurd hsome (by simp)
    · rw [if_neg hpls] at hsome
      exact ⟨tr, htr, hpls, (Option.some_injective _ hsome).symm⟩
  · rintro ⟨tr, htr, hpls, rfl⟩
    exact ⟨tr, htr, by rw [if_neg hpls]⟩

/-- C2: `find_duplicate_ids` returns exactly the tracks contained in more
than one distinct non-excluded playlist, each reported with that distinct
count and with a playlist list holding exactly its containing non-excluded
playlists.  The hypothesis is the `playlists.id` PRIMARY KEY constraint. -/
theorem C2_find_duplicate_ids (db : Db) (excluded : List String)
    (hp : (db.playlists.map (fun p => p.1)).Nodup) :
    (∀ e ∈ find_duplicate_ids db excluded,
      1 < (containing_playlists db excluded e.id).length ∧
      e.count = (containing_playlists db excluded e.id).length ∧
      (∀ pr, pr ∈ e.playlistPairs ↔
        pr ∈ db.playlists ∧ pr.1 ∉ excluded ∧
          ∃ r ∈ db.playlists_tracks,
            r.playlist_id = pr.1 ∧ r.track_id = e.id)) ∧
    (∀ tr ∈ db.tracks, 1 < (containing_playlists db excluded tr.1).length →
      ∃ e ∈ find_duplicate_ids db excluded, e.id = tr.1) := by
  constructor
  · intro e he
    unfold find_duplicate_ids at he
    rcases List.mem_filterMap.mp he with ⟨ti, hti, hsome⟩
    by_cases hcnt : 1 < ti.playlist_count
    · rw [if_pos hcnt] at hsome
      rcases (mem_get_tracks_opt db excluded ti).mp hti with ⟨tr, _, _, rfl⟩
      rcases Option.some_injective _ hsome with rfl
      have hc := track_playlists_count db excluded tr.1 hp
      refine ⟨by rw [← hc]; exact hcnt, by rw [← hc], ?_⟩
      intro pr
      exact mem_track_playlists db excluded tr.1 pr
    · rw [if_neg hcnt] at hsome
      exact absurd hsome (by simp)
  · intro tr htr hcnt
    have htr' : tr ∈ dedupKeepFirst db.tracks :=
      (mem_dedupKeepFirst db.tracks tr).mpr htr
    have hc := track_playlists_count db excluded tr.1 hp
    have hcnt' : 1 < (((track_playlists db excluded tr.1).map
        (fun p => p.1)).dedup).length := by rw [hc]; exact hcnt
    have hpls : track_playlists db excluded tr.1 ≠ [] := by
      intro h0
      rw [h0] at hcnt'
      simp [List.dedup_nil] at hcnt'
    set ti := TrackInfo.mk tr.1 tr.2 (track_artists_str db tr.1)
      (track_playlists db excluded tr.1)
      (((track_playlists db excluded tr.1).map (fun p => p.1)).dedup).length
      (if track_artists_str db tr.1 = "" then tr.2
       else track_artists_str db tr.1 ++ " - " ++ tr.2) with hti_def
    have hti : ti ∈ get_tracks_with_playlists_optimized db excluded :=
      (mem_get_tracks_opt db excluded ti).mpr ⟨tr, htr', hpls, rfl⟩
    refine ⟨DupIdEntry.mk ti.id ti.full_name ti.playlist_count ti.playlists
      (joinWith "," (ti.playlists.map (fun p => p.1 ++ "_" ++ p.2))), ?_, rfl⟩
    unfold find_duplicate_ids
    apply List.mem_filterMap.mpr
    exact ⟨ti, hti, by rw [if_pos hcnt']⟩

/-- Concrete database for C2's witness: one track in two playlists. -/
def dbW : Db :=
  Db.mk [("t1", "Song")] [("p1", "A"), ("p2", "B")]
    [PTRow.mk "p1" "t1" "d1", PTRow.mk "p2" "t1" "d2"]
    [] [] [] [] []

/-- C2 witness: both directions of the theorem discharged on `dbW`. -/
theorem C2_find_duplicate_ids_witness :
    (∃ e ∈ find_duplicate_ids dbW [], e.id = "t1") ∧
    (∀ e ∈ find_duplicate_ids dbW [],
      1 < (containing_playlists dbW [] e.id).length) := by
  have h := C2_find_duplicate_ids dbW [] (by decide)
  constructor
  · exact h.2 ("t1", "Song") (by decide) (by decide)
  · intro e he
    exact (h.1 e he).1

/-! ## Criteria search (C6)

`misc.find_tracks_by_criteria` resolves playlist patterns to ids (exact
22-character alphanumeric ids, exact id matches, then `LIKE` name
patterns), then runs a join query filtered by playlist membership, album
release-date bounds and a genre `REGEXP` subquery.  SQL `LIKE` and the
Python `re` engine (inside `sqlite._regexp`) are abstract boolean
parameters; SQL `NULL` from the `LEFT JOIN` chains is `Option`. -/

/-- sqlite._regexp: SQL NULL operands never match; otherwise the outcome of
`re.search` (the abstract engine `regexFn`, which also absorbs the
invalid-pattern → False branch). -/
def sqlite_regexp (regexFn : String → String → Bool) :
    Option String → Option String → Bool
  | none, _ => false
  | some _, none => false
  | some expr, some item => regexFn expr item

/-- Python `str.isalnum()`: nonempty and all alphanumeric. -/
def pyIsAlnum (s : String) : Bool :=
  decide (s.data ≠ []) && s.data.all Char.isAlphanum

/-- Pattern resolution of `find_tracks_by_criteria` (and `count_tracks`):
a 22-character alphanumeric pattern is an id (its name fetched for
logging); otherwise exact id matches, and failing those, `name LIKE
pattern` matches. -/
def resolve_playlist_patterns (likeFn : String → String → Bool) (db : Db)
    (patterns : List String) : List (String × String) :=
  patterns.flatMap (fun pattern =>
    if strLen pattern = 22 ∧ pyIsAlnum pattern = true then
      [(pattern,
        match (db.playlists.filter (fun p => decide (p.1 = pattern))).head? with
        | some p => p.2
        | none => pattern)]
    else
      let rows := db.playlists.filter (fun p => decide (p.1 = pattern))
      if rows = [] then db.playlists.filter (fun p => likeFn pattern p.2)
      else rows)

/-- The row multiset of a SQL `LEFT JOIN` arm: the matching rows, or a
single NULL row when there is none. -/
def leftRows : List α → List (Option α)
  | [] => [none]
  | ms => ms.map some

/-- The `LEFT JOIN albums_tracks LEFT JOIN albums` arms for one track: the
album rows joined to it, with NULL propagation. -/
def album_opts (db : Db) (tid : String) :
    List (Option (String × String × String)) :=
  (leftRows (db.albums_tracks.filter (fun atr => decide (atr.2 = tid)))).flatMap
    (fun atOpt => match atOpt with
      | none => [none]
      | some atr => leftRows (db.albums.filter (fun al => decide (al.1 = atr.1))))

/-- The `LEFT JOIN tracks_artists LEFT JOIN artists LEFT JOIN
artists_genres` arms for one track: (artist row, genre row) pairs with NULL
propagation. -/
def artist_genre_opts (db : Db) (tid : String) :
    List (Option (String × String) × Option (String × String)) :=
  (leftRows (db.tracks_artists.filter (fun ta => decide (ta.1 = tid)))).flatMap
    (fun taOpt => match taOpt with
      | none => [(none, none)]
      | some ta =>
        (leftRows (db.artists.filter (fun ar => decide (ar.1 = ta.2)))).flatMap
          (fun arOpt => match arOpt with
            | none => [(none, none)]
            | some ar =>
              (leftRows (db.artists_genres.filter
                (fun ag => decide (ag.1 = ar.1)))).map
                (fun agOpt => (some ar, agOpt))))

/-- The release-date `WHERE` clauses: `BETWEEN` / `>=` / `<=` on the TEXT
release date; a NULL album never satisfies a bound (SQL three-valued
logic), and with no bound the clause is absent. -/
def date_cond (startD endD : Option String)
    (al : Option (String × String × String)) : Bool :=
  match startD, endD with
  | some s, some e => match al with
    | some a => strLe s a.2.2 && strLe a.2.2 e
    | none => false
  | some s, none => match al with
    | some a => strLe s a.2.2
    | none => false
  | none, some e => match al with
    | some a => strLe a.2.2 e
    | none => false
  | none, none => true

/-- The genre subquery: the track appears in it iff a `tracks_artists →
artists → artists_genres` chain exists whose lowered genre matches the
lowered pattern under `REGEXP` (`sqlite._regexp`). -/
def genre_match_track (regexFn : String → String → Bool) (db : Db)
    (pat tid : String) : Bool :=
  db.tracks.any (fun t2 => decide (t2.1 = tid)) &&
  db.tracks_artists.any (fun ta => decide (ta.1 = tid) &&
    db.artists.any (fun ar => decide (ar.1 = ta.2) &&
      db.artists_genres.any (fun ag => decide (ag.1 = ar.1) &&
        sqlite_regexp regexFn (some (lowerStr pat)) (some (lowerStr ag.2)))))

/-- `GROUP_CONCAT(DISTINCT ar.name)` over one track's artist arms (NULL
when the track has no joined artist). -/
def track_artist_names_agg (db : Db) (tid : String) : Option String :=
  let names := dedupKeepFirst
    ((artist_genre_opts db tid).filterMap (fun x => x.1.map (fun ar => ar.2)))
  if names = [] then none else some (joinWith "," names)

/-- `GROUP_CONCAT(DISTINCT ag.genre)` over one track's genre arms. -/
def track_genres_agg (db : Db) (tid : String) : Option String :=
  let gs := dedupKeepFirst
    ((artist_genre_opts db tid).filterMap (fun x => x.2.map (fun ag => ag.2)))
  if gs = [] then none else some (joinWith "," gs)

/-- One result row of `find_tracks_by_criteria`. -/
structure CriteriaRow where
  track_id : String
  track_name : String
  release_year : Option String
  album_name : Option String
  artist_names : Option String
  artist_genres : Option String
deriving DecidableEq, Repr

/-- `ORDER BY artist_names COLLATE NOCASE, track_name COLLATE NOCASE`
(SQL NULLs sort first in ascending order). -/
def criteriaRowLe (a b : CriteriaRow) : Bool :=
  let ka := a.artist_names.map lowerStr
  let kb := b.artist_names.map lowerStr
  if ka = kb then strLe (lowerStr a.track_name) (lowerStr b.track_name)
  else match ka, kb with
    | none, _ => true
    | some _, none => false
    | some x, some y => strLe x y

/-- The `WHERE`-filtered `playlists_tracks` rows of one track (the join's
playlist-membership clause). -/
def criteria_pt_rows (db : Db) (playlist_ids : List String) (tid : String) :
    List PTRow :=
  db.playlists_tracks.filter (fun r =>
    decide (r.track_id = tid ∧ r.playlist_id ∈ playlist_ids))

/-- The genre clause: absent when no pattern is given, otherwise the
subquery membership test. -/
def genre_ok (regexFn : String → String → Bool) (db : Db)
    (genre_pattern : Option String) (tid : String) : Bool :=
  match genre_pattern with
  | some g => genre_match_track regexFn db g tid
  | none => true

/-- The result rows contributed by one `GROUP BY` track: one row per
distinct `(al.name, al.release_date)` key among the date-qualifying album
arms, provided some playlist join row and the genre clause survive. -/
def criteria_rows_for_track (regexFn : String → String → Bool) (db : Db)
    (playlist_ids : List String)
    (start_date end_date genre_pattern : Option String)
    (tr : String × String) : List CriteriaRow :=
  if criteria_pt_rows db playlist_ids tr.1 = [] then []
  else if genre_ok regexFn db genre_pattern tr.1 = false then []
  else
    (dedupKeepFirst
      (((album_opts db tr.1).filter (date_cond start_date end_date)).map
        (fun alOpt => alOpt.map (fun al => (al.2.1, al.2.2))))).map
      (fun key =>
        CriteriaRow.mk tr.1 tr.2
          (key.map (fun k => (⟨k.2.data.take 4⟩ : String)))
          (key.map (fun k => k.1))
          (track_artist_names_agg db tr.1)
          (track_genres_agg db tr.1))

/-- misc.find_tracks_by_criteria: resolve patterns, join, filter by
playlist ids, date bounds and genre subquery, group by `(t.id, t.name,
al.name, al.release_date)` and order by artists/track name. -/
def find_tracks_by_criteria (likeFn regexFn : String → String → Bool)
    (db : Db) (playlist_patterns : List String)
    (start_date end_date genre_pattern : Option String) : List CriteriaRow :=
  if playlist_patterns = [] then []
  else if (resolve_playlist_patterns likeFn db playlist_patterns).map
      (fun p => p.1) = [] then []
  else
    sortStable criteriaRowLe
      ((dedupKeepFirst db.tracks).flatMap
        (criteria_rows_for_track regexFn db
          ((resolve_playlist_patterns likeFn db playlist_patterns).map
            (fun p => p.1))
          start_date end_date genre_pattern))

theorem mem_leftRows (ms : List α) (x : Option α) (hx : x ∈ leftRows ms) :
    x = none ∨ ∃ m ∈ ms, x = some m := by
  cases ms with
  | nil =>
    simp only [leftRows, List.mem_singleton] at hx
    exact Or.inl hx
  | cons a as =>
    simp only [leftRows] at hx
    rcases List.mem_map.mp hx with ⟨m, hm, rfl⟩
    exact Or.inr ⟨m, hm, rfl⟩

theorem mem_album_opts (db : Db) (tid : String)
    (alOpt : Option (String × String × String))
    (h : alOpt ∈ album_opts db tid) :
    alOpt = none ∨ ∃ atr ∈ db.albums_tracks, atr.2 = tid ∧
      ∃ al ∈ db.albums, al.1 = atr.1 ∧ alOpt = some al := by
  unfold album_opts at h
  rcases List.mem_flatMap.mp h with ⟨atOpt, hat, hin⟩
  rcases mem_leftRows _ _ hat with rfl | ⟨atr, hatr, rfl⟩
  · simp only [List.mem_singleton] at hin
    exact Or.inl hin
  · rcases mem_leftRows _ _ hin with rfl | ⟨al, hal, rfl⟩
    · exact Or.inl rfl
    · rcases List.mem_filter.mp hatr with ⟨hatr1, hatr2⟩
      rcases List.mem_filter.mp hal with ⟨hal1, hal2⟩
      exact Or.inr ⟨atr, hatr1, by simpa using hatr2, al, hal1,
        by simpa using hal2, rfl⟩

/-- C6: every row returned by `find_tracks_by_criteria` belongs to a
playlist matched by the patterns; when a date bound is given its album's
release date satisfies the bounds; when a genre pattern is given the genre
subquery matches the track; and with no patterns or no resolved playlist
the result is empty. -/
theorem C6_find_tracks_by_criteria (likeFn regexFn : String → String → Bool)
    (db : Db) (patterns : List String)
    (startD endD genreP : Option String) :
    (∀ row ∈ find_tracks_by_criteria likeFn regexFn db patterns
        startD endD genreP,
      (∃ r ∈ db.playlists_tracks, r.track_id = row.track_id ∧
        r.playlist_id ∈ (resolve_playlist_patterns likeFn db patterns).map
          (fun p => p.1)) ∧
      (startD ≠ none ∨ endD ≠ none →
        ∃ atr ∈ db.albums_tracks, atr.2 = row.track_id ∧
        ∃ al ∈ db.albums, al.1 = atr.1 ∧
          (∀ s, startD = some s → strLe s al.2.2 = true) ∧
          (∀ e, endD = some e → strLe al.2.2 e = true)) ∧
      (∀ g, genreP = some g →
        genre_match_track regexFn db g row.track_id = true)) ∧
    (patterns = [] →
      find_tracks_by_criteria likeFn regexFn db patterns startD endD genreP
        = []) ∧
    (resolve_playlist_patterns likeFn db patterns = [] →
      find_tracks_by_criteria likeFn regexFn db patterns startD endD genreP
        = []) := by
  refine ⟨?_, ?_, ?_⟩
  · intro row hrow
    unfold find_tracks_by_criteria at hrow
    by_cases h0 : patterns = []
    · rw [if_pos h0] at hrow
      simp at hrow
    · rw [if_neg h0] at hrow
      by_cases h1 : (resolve_playlist_patterns likeFn db patterns).map
          (fun p => p.1) = []
      · rw [if_pos h1] at hrow
        simp at hrow
      · rw [if_neg h1, mem_sortStable] at hrow
        rcases List.mem_flatMap.mp hrow with ⟨tr, _, hin⟩
        unfold criteria_rows_for_track at hin
        by_cases hpt : criteria_pt_rows db
            ((resolve_playlist_patterns likeFn db patterns).map
              (fun p => p.1)) tr.1 = []
        · rw [if_pos hpt] at hin
          simp at hin
        · rw [if_neg hpt] at hin
          by_cases hgen : genre_ok regexFn db genreP tr.1 = false
          · rw [if_pos hgen] at hin
            simp at hin
          · rw [if_neg hgen] at hin
            rcases List.mem_map.mp hin with ⟨key, hkey, rfl⟩
            rcases List.exists_mem_of_ne_nil _ hpt with ⟨r, hr⟩
            unfold criteria_pt_rows at hr
            rcases List.mem_filter.mp hr with ⟨hr1, hr2⟩
            rw [decide_eq_true_eq] at hr2
            refine ⟨⟨r, hr1, hr2.1, hr2.2⟩, ?_, ?_⟩
            · intro hbound
              rw [mem_dedupKeepFirst] at hkey
              rcases List.mem_map.mp hkey with ⟨alOpt, halOpt, rfl⟩
              rcases List.mem_filter.mp halOpt with ⟨halmem, halcond⟩
              have halsome : ∃ al, alOpt = some al ∧
                  (∀ s, startD = some s → strLe s al.2.2 = true) ∧
                  (∀ e, endD = some e → strLe al.2.2 e = true) := by
                unfold date_cond at halcond
                rcases hbound with hs | he
                · rcases hstart : startD with _ | s
                  · exact absurd hstart hs
                  · rw [hstart] at halcond
                    cases hend : endD with
                    | none =>
                      rw [hend] at halcond
                      cases alOpt with
                      | none => simp at halcond
                      | some al =>
                        refine ⟨al, rfl, ?_, ?_⟩
                        · intro s' hs'
                          cases hs'
                          simpa using halcond
                        · intro e' he'
                          cases he'
                    | some e =>
                      rw [hend] at halcond
                      cases alOpt with
                      | none => simp at halcond
                      | some al =>
                        rw [Bool.and_eq_true] at halcond
                        refine ⟨al, rfl, ?_, ?_⟩
                        · intro s' hs'
                          cases hs'
                          exact halcond.1
                        · intro e' he'
                          cases he'
                          exact halcond.2
                · rcases hend : endD with _ | e
                  · exact absurd hend he
                  · rw [hend] at halcond
                    cases hstart : startD with
                    | none =>
                      rw [hstart] at halcond
                      cases alOpt with
                      | none => simp at halcond
                      | some al =>
                        refine ⟨al, rfl, ?_, ?_⟩
                        · intro s' hs'
                          cases hs'
                        · intro e' he'
                          cases he'
                          simpa using halcond
                    | some s =>
                      rw [hstart] at halcond
                      cases alOpt with
                      | none => simp at halcond
                      | some al =>
                        rw [Bool.and_eq_true] at halcond
                        refine ⟨al, rfl, ?_, ?_⟩
                        · intro s' hs'
                          cases hs'
                          exact halcond.1
                        · intro e' he'
                          cases he'
                          exact halcond.2
              rcases halsome with ⟨al, rfl, hsb, heb⟩
              rcases mem_album_opts db tr.1 (some al) halmem with h0 | hex2
              · exact absurd h0 (by simp)
              · rcases hex2 with ⟨atr, hatr, hatid, al', hal', halid, heq⟩
                rcases Option.some_injective _ heq.symm with rfl
                exact ⟨atr, hatr, hatid, al', hal', halid, hsb, heb⟩
            · intro g hg
              rw [hg] at hgen
              simpa [genre_ok] using hgen
  · intro h0
    unfold find_tracks_by_criteria
    rw [if_pos h0]
  · intro h0
    unfold find_tracks_by_criteria
    split
    · rfl
    · rw [if_pos (by rw [h0]; rfl)]

/-- Concrete database for the C6 witness: one track in one playlist, with
an album in range and a matching genre. -/
def dbW6 : Db :=
  Db.mk [("t1", "Song")] [("p1", "List")] [PTRow.mk "p1" "t1" "d1"]
    [("al1", "Album", "2020-05-01")] [("al1", "t1")]
    [("t1", "ar1")] [("ar1", "Artist")] [("ar1", "rock")]

/-- C6 witness: the theorem's conclusions discharged at concrete inputs
(with the external LIKE and regex engines instantiated to constant
matchers). -/
theorem C6_find_tracks_by_criteria_witness :
    (∃ row ∈ find_tracks_by_criteria (fun _ _ => true) (fun _ _ => true)
        dbW6 ["List"] (some "2020-01-01") (some "2020-12-31") (some "rock"),
      (∃ r ∈ dbW6.playlists_tracks, r.track_id = row.track_id ∧
        r.playlist_id ∈ (resolve_playlist_patterns (fun _ _ => true) dbW6
          ["List"]).map (fun p => p.1)) ∧
      genre_match_track (fun _ _ => true) dbW6 "rock" row.track_id = true) ∧
    find_tracks_by_criteria (fun _ _ => true) (fun _ _ => true)
      dbW6 [] none none none = [] := by
  constructor
  · refine ⟨CriteriaRow.mk "t1" "Song" (some "2020") (some "Album")
      (some "Artist") (some "rock"), by decide, ?_⟩
    have h := (C6_find_tracks_by_criteria (fun _ _ => true) (fun _ _ => true)
      dbW6 ["List"] (some "2020-01-01") (some "2020-12-31") (some "rock")).1
      (CriteriaRow.mk "t1" "Song" (some "2020") (some "Album")
        (some "Artist") (some "rock")) (by decide)
    exact ⟨h.1, h.2.2 "rock" rfl⟩
  · exact (C6_find_tracks_by_criteria (fun _ _ => true) (fun _ _ => true)
      dbW6 [] none none none).2.1 rfl

/-! ## Fuzzy-name duplicate detection (C3, C10)

`dupes.find_duplicate_names`: pass 1 compares tracks sharing a 3-character
name prefix with `rapidfuzz.process.extract`; pass 2 compares cross-prefix
tracks sharing an artist.  The four rapidfuzz scorers are an abstract
structure of `String → String → Nat` functions (their scores are only
compared).  `is_likely_false_positive` is embedded in full, with
`re.sub(r"\(feat\..*?\)", "", s)` implemented directly (the non-greedy
match up to the first closing parenthesis; `.` not matching a newline is
irrelevant for track names). -/

/-- The external rapidfuzz scorers. -/
structure Fuzz where
  ratioFn : String → String → Nat
  partialRatioFn : String → String → Nat
  tokenSortRatioFn : String → String → Nat
  tokenSetRatioFn : String → String → Nat

/-- Skip to just after the first closing parenthesis (the end of the
non-greedy `.*?\)` match). -/
def featClose : List Char → Option (List Char)
  | [] => none
  | c :: cs => if c = ')' then some cs else featClose cs

/-- One left-to-right pass of `re.sub(r"\(feat\..*?\)", "", s,
flags=IGNORECASE)`: at each position, if `(feat.` (case-insensitively)
starts here and a closing parenthesis follows, drop through it; otherwise
keep the character. -/
def featSub : Nat → List Char → List Char
  | _, [] => []
  | 0, cs => cs
  | fuel + 1, c :: cs =>
    if ((c :: cs).take 6).map Char.toLower = "(feat.".data then
      match featClose ((c :: cs).drop 6) with
      | some rest => featSub fuel rest
      | none => c :: featSub fuel cs
    else c :: featSub fuel cs

/-- `re.sub(r"\(feat\..*?\)", "", s, flags=IGNORECASE)`. -/
def stripFeat (s : String) : String := ⟨featSub s.data.length s.data⟩

/-- The remix/version markers of is_likely_false_positive's Pattern 0. -/
def remix_markers : List String :=
  ["remix", "edit", "mix", "version", "remaster", "feat", "ft", "("]

/-- The inner test of Pattern 1: the short track name equals (or, if longer
than 3 characters, is contained in) an artist of the other track, and the
core-track-name exception does not apply. -/
def flpArtistHit (name_lower other_core : String) (artist : String) : Bool :=
  (decide (name_lower = artist) ||
    (decide (3 < strLen name_lower) && substrOf name_lower artist)) &&
  !(substrOf name_lower other_core &&
    (startsWithStr other_core (name_lower ++ " ") ||
     startsWithStr other_core (name_lower ++ " (") ||
     decide (name_lower = other_core)))

/-- dupes.is_likely_false_positive: the five false-positive patterns, in
order, each returning True when it fires.  Pattern 2's `max_len / min_len >
3` and Pattern 4's `min_len / max_len < 0.25` are the exact rational
comparisons `3 * min_len < max_len` and `4 * min_len < max_len` (Python's
float division; the `min_len = 0` division crash of Pattern 2 is outside
the embedding's domain since the pipeline only passes names of length at
least 3). -/
def is_likely_false_positive (fz : Fuzz)
    (track1_name track2_name track1_artists track2_artists : String) : Bool :=
  let name1_lower := trimStr (lowerStr track1_name)
  let name2_lower := trimStr (lowerStr track2_name)
  let min_len := min (strLen name1_lower) (strLen name2_lower)
  let max_len := max (strLen name1_lower) (strLen name2_lower)
  let shorter := if strLen name1_lower < strLen name2_lower
    then name1_lower else name2_lower
  let longer := if strLen name1_lower < strLen name2_lower
    then name2_lower else name1_lower
  let all_artists1 := splitWs (replaceChar ',' " " (lowerStr track1_artists))
  let all_artists2 := splitWs (replaceChar ',' " " (lowerStr track2_artists))
  let core1 := trimStr (stripFeat name1_lower)
  let core2 := trimStr (stripFeat name2_lower)
  -- Pattern 0: very short names
  if decide (min_len ≤ 5) && !(decide (shorter = longer)) &&
      (if startsWithStr longer (shorter ++ " ") then
        !(remix_markers.any (fun m =>
          startsWithStr (trimStr ⟨longer.data.drop (strLen shorter)⟩) m ||
          startsWithStr (trimStr ⟨longer.data.drop (strLen shorter)⟩) "- "))
       else true) then true
  -- Pattern 1: track name is an artist of the other track
  else if decide (strLen track1_name ≤ 15) &&
      all_artists2.any (flpArtistHit name1_lower core2) then true
  else if decide (strLen track2_name ≤ 15) &&
      all_artists1.any (flpArtistHit name2_lower core1) then true
  -- Pattern 2: short word that is a non-leading substring of a much longer name
  else if decide (min_len < 8) && decide (3 * min_len < max_len) &&
      substrOf shorter longer && !(startsWithStr longer shorter) then true
  -- Pattern 3: different cores with only a shared featured artist
  else if substrOf "feat" name1_lower && substrOf "feat" name2_lower &&
      decide (fz.ratioFn core1 core2 < 60) then true
  -- Pattern 4: extreme length ratio without a remix/version pattern
  else if decide (0 < max_len) && decide (4 * min_len < max_len) &&
      !(startsWithStr longer shorter ||
        startsWithStr shorter ((splitWs longer).headD "")) then true
  else false

/-- One candidate row of `get_fuzzy_match_candidates`. -/
structure Candidate where
  id : String
  name : String
  artists : String
  playlists : List (String × String)
  full_name : String
  name_prefix : String
  name_length : Nat
deriving DecidableEq, Repr

/-- `ORDER BY name_prefix, name_length`. -/
def candOrd (a b : Candidate) : Bool :=
  if a.name_prefix = b.name_prefix then decide (a.name_length ≤ b.name_length)
  else strLe a.name_prefix b.name_prefix

/-- dupes.get_fuzzy_match_candidates: the aggregation query of
`get_tracks_with_playlists_optimized` plus the `LOWER(SUBSTR(t.name, 1,
3))` prefix and `LENGTH(t.name)` columns, restricted to names of length at
least `min_name_length` and ordered by (prefix, length). -/
def get_fuzzy_match_candidates (db : Db) (excluded : List String)
    (min_name_length : Nat) : List Candidate :=
  sortStable candOrd
    ((dedupKeepFirst db.tracks).filterMap (fun tr =>
      if strLen tr.2 < min_name_length then none
      else if track_playlists db excluded tr.1 = [] then none
      else
        some (Candidate.mk tr.1 tr.2 (track_artists_str db tr.1)
          (track_playlists db excluded tr.1)
          (if track_artists_str db tr.1 = "" then tr.2
           else track_artists_str db tr.1 ++ " - " ++ tr.2)
          (lowerStr ⟨tr.2.data.take 3⟩) (strLen tr.2))))

/-- A reported fuzzy pair.  The Python dict stores the name, artist,
playlist, score and ratio-type strings; the two track ids are kept as
fields so the uniqueness claim can speak about them. -/
structure DupNameEntry where
  id1 : String
  id2 : String
  track1 : String
  artists1 : String
  playlists1 : String
  track2 : String
  artists2 : String
  playlists2 : String
  score : Nat
  ratioType : String
deriving DecidableEq, Repr

/-- The mutable state threaded through pass 1: the result list and the
`seen_pairs` set. -/
structure DupSt where
  dups : List DupNameEntry
  seen : List (String × String)

/-- Python `tuple(sorted([a, b]))`. -/
def pair_key (a b : String) : String × String :=
  if strLe a b then (a, b) else (b, a)

/-- The normalised unordered pair of an entry's track ids. -/
def entry_key (e : DupNameEntry) : String × String := pair_key e.id1 e.id2

/-- The `f"{pid}_{pname}"` comma-joined playlist column of a reported
pair. -/
def playlists_str (pls : List (String × String)) : String :=
  joinWith "," (pls.map (fun p => p.1 ++ "_" ++ p.2))

/-- Build the reported dict for a pair of candidates. -/
def mk_entry (t1 t2 : Candidate) (score : Nat) (rt : String) : DupNameEntry :=
  DupNameEntry.mk t1.id t2.id t1.name t1.artists (playlists_str t1.playlists)
    t2.name t2.artists (playlists_str t2.playlists) score rt

/-- The `if algo_score > best_score` update loop over the alternative
scorers. -/
def best_algo (init_type : String) (init_score : Nat)
    (algos : List (String × Nat)) : Nat × String :=
  algos.foldl (fun best a => if a.2 > best.1 then (a.2, a.1) else best)
    (init_score, init_type)

/-- rapidfuzz `process.extract(name1, remaining_names,
scorer=fuzz.token_set_ratio, score_cutoff=threshold, limit=None)`: every
remaining candidate scoring at least the cutoff, best score first, paired
with its candidate (the Python code indexes `remaining_tracks` with the
returned match index). -/
def extract_matches (fz : Fuzz) (threshold : Nat) (name1 : String)
    (remaining : List Candidate) : List (Candidate × Nat) :=
  sortStable (fun a b => decide (b.2 ≤ a.2))
    ((remaining.map
      (fun c => (c, fz.tokenSetRatioFn name1 (lowerStr c.full_name)))).filter
      (fun m => decide (threshold ≤ m.2)))

/-- The alternative scorers tried after a pass-1 match. -/
def pass1_algos (fz : Fuzz) (name1 match_text : String) : List (String × Nat) :=
  [("ratio", fz.ratioFn name1 match_text),
   ("partial_ratio", fz.partialRatioFn name1 match_text),
   ("token_sort_ratio", fz.tokenSortRatioFn name1 match_text)]

/-- Processing of one pass-1 match: skip same ids, already-seen pairs and
false positives; otherwise record the pair key and append the entry with
the best scorer. -/
def pass1_process_match (fz : Fuzz) (name1 : String) (t1 : Candidate)
    (st : DupSt) (m : Candidate × Nat) : DupSt :=
  if t1.id = m.1.id then st
  else if pair_key t1.id m.1.id ∈ st.seen then st
  else if is_likely_false_positive fz t1.name m.1.name t1.artists m.1.artists
  then st
  else
    DupSt.mk
      (st.dups ++ [mk_entry t1 m.1
        (best_algo "token_set_ratio" m.2
          (pass1_algos fz name1 (lowerStr m.1.full_name))).1
        (best_algo "token_set_ratio" m.2
          (pass1_algos fz name1 (lowerStr m.1.full_name))).2])
      (pair_key t1.id m.1.id :: st.seen)

/-- One pass-1 comparison round: `track1` against the remaining tracks of
its prefix group. -/
def pass1_track (fz : Fuzz) (threshold : Nat) (t1 : Candidate)
    (rest : List Candidate) (st : DupSt) : DupSt :=
  (extract_matches fz threshold (lowerStr t1.full_name) rest).foldl
    (pass1_process_match fz (lowerStr t1.full_name) t1) st

/-- The `for i, track1 in enumerate(group)` loop of pass 1. -/
def pass1_group (fz : Fuzz) (threshold : Nat) :
    List Candidate → DupSt → DupSt
  | [], st => st
  | t1 :: rest, st =>
    pass1_group fz threshold rest (pass1_track fz threshold t1 rest st)

/-- `defaultdict(list)` appending: extend the group of `k`, keeping
first-insertion order of keys. -/
def dict_append [DecidableEq κ] (k : κ) (v : α) :
    List (κ × List α) → List (κ × List α)
  | [] => [(k, [v])]
  | (k', g) :: rest =>
    if k' = k then (k', g ++ [v]) :: rest
    else (k', g) :: dict_append k v rest

/-- The `prefix_groups` defaultdict of pass 1. -/
def prefix_groups (cands : List Candidate) :
    List (String × List Candidate) :=
  cands.foldl (fun acc c => dict_append c.name_prefix c acc) []

/-- Pass 1: process every prefix group (groups with fewer than two tracks
contribute nothing). -/
def pass1 (fz : Fuzz) (threshold : Nat) (cands : List Candidate)
    (st : DupSt) : DupSt :=
  (prefix_groups cands).foldl
    (fun st pg => pass1_group fz threshold pg.2 st) st

/-- The `artist_to_tracks` defaultdict of pass 2: each candidate is indexed
under each of its comma-separated, stripped, lowered artist names, skipping
empty artist strings. -/
def artist_index (cands : List Candidate) :
    List (String × List Candidate) :=
  cands.foldl (fun acc c =>
    if c.artists = "" then acc
    else ((splitOnChar ',' c.artists).map
        (fun a => lowerStr (trimStr a))).foldl
      (fun acc artist =>
        if artist = "" then acc else dict_append artist c acc) acc) []

/-- Python dict assignment `d[k] = v`: replace in place or append. -/
def dict_insert [DecidableEq κ] (k : κ) (v : α) :
    List (κ × α) → List (κ × α)
  | [] => [(k, v)]
  | (k', v') :: rest =>
    if k' = k then (k', v) :: rest
    else (k', v') :: dict_insert k v rest

/-- Pass-2 pair collection for one (track1, track2): skip same ids, pairs
seen in pass 1 and same-prefix pairs (already compared); otherwise store
the pair under its key. -/
def pass2_consider (seen1 : List (String × String)) (t1 t2 : Candidate)
    (d : List ((String × String) × (Candidate × Candidate))) :
    List ((String × String) × (Candidate × Candidate)) :=
  if t1.id = t2.id then d
  else if pair_key t1.id t2.id ∈ seen1 then d
  else if t1.name_prefix = t2.name_prefix then d
  else dict_insert (pair_key t1.id t2.id) (t1, t2) d

/-- The `for i, track1; for track2 in tracks[i + 1:]` loops over one
artist's track list. -/
def pass2_add_pairs (seen1 : List (String × String)) :
    List Candidate →
    List ((String × String) × (Candidate × Candidate)) →
    List ((String × String) × (Candidate × Candidate))
  | [], d => d
  | t1 :: rest, d =>
    pass2_add_pairs seen1 rest
      (rest.foldl (fun d t2 => pass2_consider seen1 t1 t2 d) d)

/-- The `pass2_pairs_to_check` dict, built over the whole artist index. -/
def pass2_dict (seen1 : List (String × String)) (cands : List Candidate) :
    List ((String × String) × (Candidate × Candidate)) :=
  (artist_index cands).foldl (fun d kv => pass2_add_pairs seen1 kv.2 d) []

/-- The alternative scorers tried after a pass-2 match (on track names). -/
def pass2_algos (fz : Fuzz) (n1 n2 : String) : List (String × Nat) :=
  [("ratio", fz.ratioFn n1 n2),
   ("token_sort_ratio", fz.tokenSortRatioFn n1 n2),
   ("token_set_ratio", fz.tokenSetRatioFn n1 n2)]

/-- Processing of one pass-2 pair: partial-ratio the lowered track names
against `max(90, threshold - 5)`, reject false positives, report the best
scorer.  (The pass-2 loop also adds the key to `seen_pairs`, but nothing
reads `seen_pairs` afterwards, so the write is not modelled.) -/
def pass2_step (fz : Fuzz) (threshold : Nat)
    (kv : (String × String) × (Candidate × Candidate)) :
    Option DupNameEntry :=
  if fz.partialRatioFn (lowerStr kv.2.1.name) (lowerStr kv.2.2.name) <
      max 90 (threshold - 5) then none
  else if is_likely_false_positive fz kv.2.1.name kv.2.2.name
      kv.2.1.artists kv.2.2.artists then none
  else
    some (mk_entry kv.2.1 kv.2.2
      (best_algo "partial_ratio"
        (fz.partialRatioFn (lowerStr kv.2.1.name) (lowerStr kv.2.2.name))
        (pass2_algos fz (lowerStr kv.2.1.name) (lowerStr kv.2.2.name))).1
      (best_algo "partial_ratio"
        (fz.partialRatioFn (lowerStr kv.2.1.name) (lowerStr kv.2.2.name))
        (pass2_algos fz (lowerStr kv.2.1.name) (lowerStr kv.2.2.name))).2)

/-- The pass-2 loop over the collected pairs. -/
def pass2_entries (fz : Fuzz) (threshold : Nat)
    (d : List ((String × String) × (Candidate × Candidate))) :
    List DupNameEntry :=
  d.filterMap (pass2_step fz threshold)

/-- The final `duplicates.sort(key=lambda x: x["score"], reverse=True)`. -/
def score_desc (a b : DupNameEntry) : Bool := decide (b.score ≤ a.score)

/-- dupes.find_duplicate_names: candidates, pass 1 over prefix groups,
pass 2 over shared-artist cross-prefix pairs, sorted by score
descending. -/
def find_duplicate_names (fz : Fuzz) (db : Db) (excluded : List String)
    (threshold : Nat) : List DupNameEntry :=
  sortStable score_desc
    ((pass1 fz threshold (get_fuzzy_match_candidates db excluded 3)
        (DupSt.mk [] [])).dups ++
      pass2_entries fz threshold
        (pass2_dict
          (pass1 fz threshold (get_fuzzy_match_candidates db excluded 3)
            (DupSt.mk [] [])).seen
          (get_fuzzy_match_candidates db excluded 3)))

theorem entry_key_mk_entry (t1 t2 : Candidate) (s : Nat) (rt : String) :
    entry_key (mk_entry t1 t2 s rt) = pair_key t1.id t2.id := rfl

/-- Generic preservation of an invariant along a fold. -/
theorem foldl_preserve {σ β : Type} (f : σ → β → σ) (P : σ → Prop)
    (hf : ∀ st b, P st → P (f st b)) (l : List β) :
    ∀ st, P st → P (l.foldl f st) := by
  induction l with
  | nil => intro st h; exact h
  | cons b bs ih => intro st h; exact ih (f st b) (hf st b h)

/-- The pass-1 state invariant: every collected entry passed the
false-positive filter, has two distinct track ids, and its key is in
`seen_pairs`; the collected keys are pairwise distinct. -/
structure Pass1Inv (fz : Fuzz) (st : DupSt) : Prop where
  flp : ∀ e ∈ st.dups,
    is_likely_false_positive fz e.track1 e.track2 e.artists1 e.artists2 = false
  ids : ∀ e ∈ st.dups, e.id1 ≠ e.id2
  keys_seen : ∀ e ∈ st.dups, entry_key e ∈ st.seen
  keys_nodup : (st.dups.map entry_key).Nodup

theorem pass1_process_match_inv (fz : Fuzz) (name1 : String) (t1 : Candidate)
    (st : DupSt) (m : Candidate × Nat) (h : Pass1Inv fz st) :
    Pass1Inv fz (pass1_process_match fz name1 t1 st m) := by
  unfold pass1_process_match
  by_cases h1 : t1.id = m.1.id
  · rw [if_pos h1]; exact h
  · rw [if_neg h1]
    by_cases h2 : pair_key t1.id m.1.id ∈ st.seen
    · rw [if_pos h2]; exact h
    · rw [if_neg h2]
      by_cases h3 : is_likely_false_positive fz t1.name m.1.name
          t1.artists m.1.artists = true
      · rw [if_pos h3]; exact h
      · rw [if_neg h3]
        have h3' : is_likely_false_positive fz t1.name m.1.name
            t1.artists m.1.artists = false := by
          rwa [Bool.not_eq_true] at h3
        refine ⟨?_, ?_, ?_, ?_⟩
        · intro e he
          rcases List.mem_append.mp he with he | he
          · exact h.flp e he
          · rcases List.mem_singleton.mp he with rfl
            exact h3'
        · intro e he
          rcases List.mem_append.mp he with he | he
          · exact h.ids e he
          · rcases List.mem_singleton.mp he with rfl
            exact h1
        · intro e he
          rcases List.mem_append.mp he with he | he
          · exact List.mem_cons_of_mem _ (h.keys_seen e he)
          · rcases List.mem_singleton.mp he with rfl
            exact List.mem_cons_self _ _
        · rw [List.map_append, List.nodup_append]
          refine ⟨h.keys_nodup, by simp, ?_⟩
          intro k hk hk2
          rcases List.mem_map.mp hk with ⟨e, he, rfl⟩
          simp only [List.map_cons, List.map_nil, List.mem_singleton,
            entry_key_mk_entry] at hk2
          exact h2 (hk2 ▸ h.keys_seen e he)

theorem pass1_track_inv (fz : Fuzz) (threshold : Nat) (t1 : Candidate)
    (rest : List Candidate) (st : DupSt) (h : Pass1Inv fz st) :
    Pass1Inv fz (pass1_track fz threshold t1 rest st) :=
  foldl_preserve _ (Pass1Inv fz)
    (fun st m hst =>
      pass1_process_match_inv fz (lowerStr t1.full_name) t1 st m hst)
    _ st h

theorem pass1_group_inv (fz : Fuzz) (threshold : Nat) :
    ∀ (g : List Candidate) (st : DupSt), Pass1Inv fz st →
      Pass1Inv fz (pass1_group fz threshold g st) := by
  intro g
  induction g with
  | nil => intro st h; exact h
  | cons t1 rest ih =>
    intro st h
    exact ih _ (pass1_track_inv fz threshold t1 rest st h)

theorem pass1_inv (fz : Fuzz) (threshold : Nat) (cands : List Candidate) :
    Pass1Inv fz (pass1 fz threshold cands (DupSt.mk [] [])) := by
  have h0 : Pass1Inv fz (DupSt.mk [] []) :=
    ⟨by intro e he; exact absurd he (by simp),
     by intro e he; exact absurd he (by simp),
     by intro e he; exact absurd he (by simp),
     by simp⟩
  exact foldl_preserve _ (Pass1Inv fz)
    (fun st pg h => pass1_group_inv fz threshold pg.2 st h)
    (prefix_groups cands) _ h0

/-- The pass-2 dict invariant: every stored entry's key is the normalised
pair of its two distinct candidate ids and was not seen in pass 1; the keys
are pairwise distinct (a Python dict). -/
def DictOk (seen1 : List (String × String))
    (d : List ((String × String) × (Candidate × Candidate))) : Prop :=
  (∀ kv ∈ d, kv.1 = pair_key kv.2.1.id kv.2.2.id ∧ kv.2.1.id ≠ kv.2.2.id ∧
    kv.1 ∉ seen1) ∧ (d.map Prod.fst).Nodup

theorem mem_dict_insert [DecidableEq κ] (k : κ) (v : α) (d : List (κ × α))
    (kv : κ × α) (h : kv ∈ dict_insert k v d) : kv = (k, v) ∨ kv ∈ d := by
  induction d with
  | nil =>
    simp only [dict_insert, List.mem_singleton] at h
    exact Or.inl h
  | cons p rest ih =>
    rcases p with ⟨k', v'⟩
    simp only [dict_insert] at h
    split at h
    · rename_i hk
      rcases List.mem_cons.mp h with rfl | h
      · exact Or.inl (by rw [hk])
      · exact Or.inr (List.mem_cons_of_mem _ h)
    · rcases List.mem_cons.mp h with rfl | h
      · exact Or.inr (List.mem_cons_self _ _)
      · rcases ih h with h | h
        · exact Or.inl h
        · exact Or.inr (List.mem_cons_of_mem _ h)

theorem keys_dict_insert [DecidableEq κ] (k : κ) (v : α) (d : List (κ × α)) :
    (dict_insert k v d).map Prod.fst =
      if k ∈ d.map Prod.fst then d.map Prod.fst
      else d.map Prod.fst ++ [k] := by
  induction d with
  | nil => simp [dict_insert]
  | cons p rest ih =>
    rcases p with ⟨k', v'⟩
    simp only [dict_insert]
    by_cases hk : k' = k
    · subst hk
      rw [if_pos rfl]
      simp
    · rw [if_neg hk]
      by_cases hmem : k ∈ rest.map Prod.fst
      · simp only [List.map_cons, ih, if_pos hmem]
        rw [if_pos (List.mem_cons_of_mem _ hmem)]
      · simp only [List.map_cons, ih, if_neg hmem]
        rw [if_neg (by
          intro hc
          rcases List.mem_cons.mp hc with hc | hc
          · exact hk hc.symm
          · exact hmem hc)]
        simp

theorem nodup_keys_dict_insert [DecidableEq κ] (k : κ) (v : α)
    (d : List (κ × α)) (h : (d.map Prod.fst).Nodup) :
    ((dict_insert k v d).map Prod.fst).Nodup := by
  rw [keys_dict_insert]
  split
  · exact h
  · rename_i hk
    simp [List.nodup_append, h, hk]

theorem pass2_consider_ok (seen1 : List (String × String))
    (t1 t2 : Candidate)
    (d : List ((String × String) × (Candidate × Candidate)))
    (h : DictOk seen1 d) :
    DictOk seen1 (pass2_consider seen1 t1 t2 d) := by
  unfold pass2_consider
  by_cases h1 : t1.id = t2.id
  · rw [if_pos h1]; exact h
  · rw [if_neg h1]
    by_cases h2 : pair_key t1.id t2.id ∈ seen1
    · rw [if_pos h2]; exact h
    · rw [if_neg h2]
      by_cases h3 : t1.name_prefix = t2.name_prefix
      · rw [if_pos h3]; exact h
      · rw [if_neg h3]
        constructor
        · intro kv hkv
          rcases mem_dict_insert _ _ _ _ hkv with rfl | hkv
          · exact ⟨rfl, h1, h2⟩
          · exact h.1 kv hkv
        · exact nodup_keys_dict_insert _ _ _ h.2

theorem pass2_add_pairs_ok (seen1 : List (String × String)) :
    ∀ (ts : List Candidate)
      (d : List ((String × String) × (Candidate × Candidate))),
      DictOk seen1 d → DictOk seen1 (pass2_add_pairs seen1 ts d) := by
  intro ts
  induction ts with
  | nil => intro d h; exact h
  | cons t1 rest ih =>
    intro d h
    exact ih _ (foldl_preserve _ (DictOk seen1)
      (fun d t2 hd => pass2_consider_ok seen1 t1 t2 d hd) rest d h)

theorem pass2_dict_ok (seen1 : List (String × String))
    (cands : List Candidate) : DictOk seen1 (pass2_dict seen1 cands) := by
  have h0 : DictOk seen1 [] := ⟨by intro kv h; exact absurd h (by simp), by simp⟩
  exact foldl_preserve _ (DictOk seen1)
    (fun d kv hd => pass2_add_pairs_ok seen1 kv.2 d hd)
    (artist_index cands) _ h0

theorem pass2_step_props (fz : Fuzz) (threshold : Nat)
    (kv : (String × String) × (Candidate × Candidate)) (e : DupNameEntry)
    (h : pass2_step fz threshold kv = some e) :
    entry_key e = pair_key kv.2.1.id kv.2.2.id ∧
    e.id1 = kv.2.1.id ∧ e.id2 = kv.2.2.id ∧
    is_likely_false_positive fz e.track1 e.track2 e.artists1 e.artists2
      = false := by
  unfold pass2_step at h
  split at h
  · exact absurd h (by simp)
  · split at h
    · exact absurd h (by simp)
    · rename_i hflp
      rcases Option.some_injective _ h with rfl
      refine ⟨rfl, rfl, rfl, ?_⟩
      rwa [Bool.not_eq_true] at hflp

theorem pass2_entries_keys_sublist (fz : Fuzz) (threshold : Nat)
    (d : List ((String × String) × (Candidate × Candidate))) :
    (∀ kv ∈ d, kv.1 = pair_key kv.2.1.id kv.2.2.id) →
    ((pass2_entries fz threshold d).map entry_key).Sublist
      (d.map Prod.fst) := by
  induction d with
  | nil => intro _; simp [pass2_entries]
  | cons kv rest ih =>
    intro hd
    have ih' := ih (fun kv2 h2 => hd kv2 (List.mem_cons_of_mem _ h2))
    unfold pass2_entries at ih' ⊢
    cases h : pass2_step fz threshold kv with
    | none =>
      rw [List.filterMap_cons_none h]
      exact List.Sublist.cons _ ih'
    | some e =>
      rw [List.filterMap_cons_some h]
      have hk : entry_key e = kv.1 := by
        rw [(pass2_step_props fz threshold kv e h).1,
          ← hd kv (List.mem_cons_self _ _)]
      simp only [List.map_cons, hk]
      exact List.Sublist.cons₂ _ ih'

/-- The combined invariants of the unsorted pass-1 ++ pass-2 result. -/
theorem fuzzy_parts_props (fz : Fuzz) (threshold : Nat)
    (cands : List Candidate) :
    (∀ e ∈ (pass1 fz threshold cands (DupSt.mk [] [])).dups ++
        pass2_entries fz threshold
          (pass2_dict (pass1 fz threshold cands (DupSt.mk [] [])).seen cands),
      is_likely_false_positive fz e.track1 e.track2 e.artists1 e.artists2
        = false ∧ e.id1 ≠ e.id2) ∧
    (((pass1 fz threshold cands (DupSt.mk [] [])).dups ++
        pass2_entries fz threshold
          (pass2_dict (pass1 fz threshold cands (DupSt.mk [] [])).seen
            cands)).map entry_key).Nodup := by
  have hinv := pass1_inv fz threshold cands
  have hdict := pass2_dict_ok
    (pass1 fz threshold cands (DupSt.mk [] [])).seen cands
  constructor
  · intro e he
    rcases List.mem_append.mp he with h1 | h2
    · exact ⟨hinv.flp e h1, hinv.ids e h1⟩
    · rcases List.mem_filterMap.mp h2 with ⟨kv, hkv, hstep⟩
      rcases pass2_step_props fz threshold kv e hstep with ⟨_, hi1, hi2, hf⟩
      refine ⟨hf, ?_⟩
      rw [hi1, hi2]
      exact (hdict.1 kv hkv).2.1
  · rw [List.map_append, List.nodup_append]
    refine ⟨hinv.keys_nodup, ?_, ?_⟩
    · exact (pass2_entries_keys_sublist fz threshold _
        (fun kv h => (hdict.1 kv h).1)).nodup hdict.2
    · intro k hk1 hk2
      rcases List.mem_map.mp hk1 with ⟨e1, he1, rfl⟩
      rcases List.mem_map.mp hk2 with ⟨e2, he2, hkeq⟩
      rcases List.mem_filterMap.mp he2 with ⟨kv, hkv, hstep⟩
      have hk2' : entry_key e2 = kv.1 := by
        rw [(pass2_step_props fz threshold kv e2 hstep).1,
          ← (hdict.1 kv hkv).1]
      exact (hdict.1 kv hkv).2.2
        (hk2' ▸ hkeq ▸ hinv.keys_seen e1 he1)

/-- C3: every pair reported by `find_duplicate_names`, from either the
same-prefix pass or the shared-artist pass, was rejected by the
false-positive filter: `is_likely_false_positive` on its two track names
and artist strings returns False. -/
theorem C3_reported_pairs_pass_filter (fz : Fuzz) (db : Db)
    (excluded : List String) (threshold : Nat) (e : DupNameEntry)
    (he : e ∈ find_duplicate_names fz db excluded threshold) :
    is_likely_false_positive fz e.track1 e.track2 e.artists1 e.artists2
      = false := by
  unfold find_duplicate_names at he
  rw [mem_sortStable] at he
  exact ((fuzzy_parts_props fz threshold
    (get_fuzzy_match_candidates db excluded 3)).1 e he).1

/-- C10: the fuzzy detector's output never pairs a track with itself, each
unordered pair of track ids appears at most once across both passes, and
the list is sorted by score in non-increasing order. -/
theorem C10_fuzzy_output_invariant (fz : Fuzz) (db : Db)
    (excluded : List String) (threshold : Nat) :
    (∀ e ∈ find_duplicate_names fz db excluded threshold, e.id1 ≠ e.id2) ∧
    ((find_duplicate_names fz db excluded threshold).map entry_key).Nodup ∧
    (find_duplicate_names fz db excluded threshold).Pairwise
      (fun a b => b.score ≤ a.score) := by
  refine ⟨?_, ?_, ?_⟩
  · intro e he
    unfold find_duplicate_names at he
    rw [mem_sortStable] at he
    exact ((fuzzy_parts_props fz threshold
      (get_fuzzy_match_candidates db excluded 3)).1 e he).2
  · unfold find_duplicate_names
    rw [((sortStable_perm score_desc _).map entry_key).nodup_iff]
    exact (fuzzy_parts_props fz threshold
      (get_fuzzy_match_candidates db excluded 3)).2
  · unfold find_duplicate_names
    have hp := pairwise_sortStable score_desc
      (by
        intro a b
        simp only [score_desc, decide_eq_true_eq]
        exact Nat.le_total b.score a.score)
      (by
        intro a b c hab hbc
        simp only [score_desc, decide_eq_true_eq] at hab hbc ⊢
        exact Nat.le_trans hbc hab)
      ((pass1 fz threshold (get_fuzzy_match_candidates db excluded 3)
          (DupSt.mk [] [])).dups ++
        pass2_entries fz threshold
          (pass2_dict (pass1 fz threshold
              (get_fuzzy_match_candidates db excluded 3)
              (DupSt.mk [] [])).seen
            (get_fuzzy_match_candidates db excluded 3)))
    exact hp.imp (fun h => by
      simpa only [score_desc, decide_eq_true_eq] using h)

/-- The constant scorers used by the C3/C10 witnesses (the scorers are
abstract parameters of the embedding). -/
def fzW : Fuzz :=
  Fuzz.mk (fun _ _ => 100) (fun _ _ => 100) (fun _ _ => 100) (fun _ _ => 100)

/-- Concrete database for the C3/C10 witnesses: two same-prefix tracks in
one playlist each. -/
def dbW10 : Db :=
  Db.mk [("t1", "abcdef"), ("t2", "abcdeg")] [("p1", "A"), ("p2", "B")]
    [PTRow.mk "p1" "t1" "d1", PTRow.mk "p2" "t2" "d2"]
    [] [] [] [] []

/-- The single entry `find_duplicate_names fzW dbW10 [] 95` reports. -/
def entryW10 : DupNameEntry :=
  DupNameEntry.mk "t1" "t2" "abcdef" "" "p1_A" "abcdeg" "" "p2_B" 100
    "token_set_ratio"

/-- C3 witness: the reported pair of the concrete run passes the
false-positive filter. -/
theorem C3_reported_pairs_pass_filter_witness :
    is_likely_false_positive fzW entryW10.track1 entryW10.track2
      entryW10.artists1 entryW10.artists2 = false :=
  C3_reported_pairs_pass_filter fzW dbW10 [] 95 entryW10 (by decide)

/-- C10 witness: the id-distinctness conjunct applied to the concrete run's
entry, plus the key-uniqueness and sortedness conjuncts at the same
input. -/
theorem C10_fuzzy_output_invariant_witness :
    entryW10.id1 ≠ entryW10.id2 ∧
    ((find_duplicate_names fzW dbW10 [] 95).map entry_key).Nodup ∧
    (find_duplicate_names fzW dbW10 [] 95).Pairwise
      (fun a b => b.score ≤ a.score) :=
  ⟨(C10_fuzzy_output_invariant fzW dbW10 [] 95).1 entryW10 (by decide),
   (C10_fuzzy_output_invariant fzW dbW10 [] 95).2.1,
   (C10_fuzzy_output_invariant fzW dbW10 [] 95).2.2⟩

end Spotfm
